import Mathlib

namespace Loopert

/-! Shallow embedding of the loopert planning/validation/execution core
    (src/packages/llm/index.js and src/packages/core/index.js).

    JavaScript dynamic values are modelled by `JVal`; JS numbers are rationals
    tagged with the non-finite values NaN and plus/minus Infinity, which is exact
    for every arithmetic operation the embedded code performs. -/

/-- Multiplication on ℚ, written through mkRat so that the kernel can evaluate
    it (Rat.mul is irreducible); equal to Mathlib multiplication by
    `qmul_eq_mul` below. -/
def qmul (a b : ℚ) : ℚ := mkRat (a.num * b.num) (a.den * b.den)

/-- Addition on ℚ through mkRat; equal to Mathlib addition by `qadd_eq_add`. -/
def qadd (a b : ℚ) : ℚ := mkRat (a.num * b.den + b.num * a.den) (a.den * b.den)

/-- Math.max on two rationals. -/
def jmax (a b : ℚ) : ℚ := if a ≤ b then b else a

/-- Math.min on two rationals. -/
def jmin (a b : ℚ) : ℚ := if a ≤ b then a else b

/-- Math.abs. -/
def jabs (a : ℚ) : ℚ := if a < 0 then -a else a

inductive JNum where
  | nan
  | inf
  | ninf
  | fin (q : ℚ)
deriving DecidableEq, Repr

inductive JVal where
  | undef
  | null
  | bool (b : Bool)
  | num (n : JNum)
  | str (s : String)
  | arr (xs : List JVal)
  | obj (fields : List (String × JVal))
deriving Repr

/-- JS truthiness: undefined, null, false, 0, NaN and the empty string are falsy. -/
def truthy : JVal → Bool
  | .undef => false
  | .null => false
  | .bool b => b
  | .num .nan => false
  | .num (.fin q) => q != 0
  | .num _ => true
  | .str s => s != ""
  | .arr _ => true
  | .obj _ => true

def jsDisplayNum : JNum → String
  | .nan => "NaN"
  | .inf => "Infinity"
  | .ninf => "-Infinity"
  | .fin q => if q.den = 1 then toString q.num else toString q.num ++ "/" ++ toString q.den

/-- String conversion of a JS value (the shapes reached by the embedded code);
    non-integer rationals are printed as fractions, a deviation from the decimal
    notation of JS doubles that no modelled code path observes. -/
def jsDisplay : JVal → String
  | .undef => "undefined"
  | .null => "null"
  | .bool b => if b then "true" else "false"
  | .num n => jsDisplayNum n
  | .str s => s
  | .arr xs =>
      String.intercalate ","
        (xs.attach.map fun ⟨x, hx⟩ =>
          match x with
          | .undef => ""
          | .null => ""
          | x => jsDisplay x)
  | .obj _ => "[object Object]"
decreasing_by
  have hlt := List.sizeOf_lt_of_mem hx
  simp_all
  omega

/-- Array.prototype.join with a separator: null and undefined elements become
    the empty string, every other element its string conversion. -/
def jsJoin (sep : String) (xs : List JVal) : String :=
  String.intercalate sep
    (xs.map fun x =>
      match x with
      | .undef => ""
      | .null => ""
      | x => jsDisplay x)

/-- Whitespace accepted by the JS trim/Number coercions; the embedding keeps the
    four ASCII whitespace characters the embedded code can actually meet. -/
def isWS (c : Char) : Bool :=
  c = ' ' || c = '\t' || c = '\n' || c = '\r'

def trimList (l : List Char) : List Char :=
  (((l.dropWhile isWS).reverse.dropWhile isWS)).reverse

/-- String.prototype.trim. -/
def jsTrim (s : String) : String :=
  ⟨trimList s.data⟩

def UPPER_LOWER : List (Char × Char) :=
  [('A','a'), ('B','b'), ('C','c'), ('D','d'), ('E','e'), ('F','f'), ('G','g'),
   ('H','h'), ('I','i'), ('J','j'), ('K','k'), ('L','l'), ('M','m'), ('N','n'),
   ('O','o'), ('P','p'), ('Q','q'), ('R','r'), ('S','s'), ('T','t'), ('U','u'),
   ('V','v'), ('W','w'), ('X','x'), ('Y','y'), ('Z','z')]

def lowerChar (c : Char) : Char :=
  ((UPPER_LOWER.find? (fun p => p.1 = c)).map Prod.snd).getD c

/-- String.prototype.toLowerCase on the ASCII range the code manipulates. -/
def jsToLower (s : String) : String :=
  ⟨s.data.map lowerChar⟩

def startsWithList : List Char → List Char → Bool
  | [], _ => true
  | _ :: _, [] => false
  | c :: cs, d :: ds => c = d && startsWithList cs ds

def occursIn (needle : List Char) : List Char → Bool
  | [] => startsWithList needle []
  | c :: rest => startsWithList needle (c :: rest) || occursIn needle rest

/-- String.prototype.includes. -/
def containsSub (s sub : String) : Bool :=
  occursIn sub.data s.data

mutual

/-- String.prototype.split on a character-class regex such as /[, ]+/: maximal
    runs of separator characters split the string, with empty pieces kept at
    either end when the string starts or ends with separators. -/
def splitRuns (sep : Char → Bool) : List Char → List Char → List String
  | [], acc => [⟨acc.reverse⟩]
  | c :: rest, acc =>
    if sep c then ⟨acc.reverse⟩ :: splitRunsSkip sep rest
    else splitRuns sep rest (c :: acc)

def splitRunsSkip (sep : Char → Bool) : List Char → List String
  | [] => [""]
  | c :: rest => if sep c then splitRunsSkip sep rest else splitRuns sep rest [c]

end

def splitOnPred (sep : Char → Bool) (s : String) : List String :=
  splitRuns sep s.data []

def natOfDigits (l : List Char) : ℕ :=
  l.foldl (fun acc c => 10 * acc + (c.toNat - '0'.toNat)) 0

/-- Decimal part of the JS Number() string grammar: digits with an optional
    decimal point ("5", "5.", ".5", "5.25"); hexadecimal and exponent forms,
    which no modelled input uses, parse to NaN here. -/
def parseUnsigned (cs : List Char) : Option ℚ :=
  let intPart := cs.takeWhile Char.isDigit
  let rest := cs.dropWhile Char.isDigit
  match rest with
  | [] => if intPart.isEmpty then none else some (mkRat (natOfDigits intPart) 1)
  | '.' :: frac =>
    if frac.all Char.isDigit && !(intPart.isEmpty && frac.isEmpty) then
      some (qadd (mkRat (natOfDigits intPart) 1) (mkRat (natOfDigits frac) (10 ^ frac.length)))
    else none
  | _ => none

def parseDecimal (t : String) : Option ℚ :=
  match t.data with
  | '+' :: rest => parseUnsigned rest
  | '-' :: rest => (parseUnsigned rest).map Neg.neg
  | cs => parseUnsigned cs

/-- Number(string): trimmed, empty means 0, Infinity forms recognised, else the
    decimal grammar, else NaN. -/
def strToNumber (s : String) : JNum :=
  let t := jsTrim s
  if t = "" then .fin 0
  else if t = "Infinity" || t = "+Infinity" then .inf
  else if t = "-Infinity" then .ninf
  else match parseDecimal t with
    | some q => .fin q
    | none => .nan

/-- Number(value) for the value shapes the embedded code feeds it; a singleton
    array coerces through its element as JS does through ToPrimitive. -/
def jsToNumber : JVal → JNum
  | .undef => .nan
  | .null => .fin 0
  | .bool b => .fin (if b then 1 else 0)
  | .num n => n
  | .str s => strToNumber s
  | .arr [] => .fin 0
  | .arr [x] =>
    match x with
    | .undef => .fin 0
    | .null => .fin 0
    | .num n => n
    | .str s => strToNumber s
    | _ => .nan
  | .arr _ => .nan
  | .obj _ => .nan

def quoteJson (s : String) : String :=
  "\"" ++ ⟨s.data.foldr (fun c acc =>
    if c = '"' then '\\' :: '"' :: acc
    else if c = '\\' then '\\' :: '\\' :: acc
    else if c = '\n' then '\\' :: 'n' :: acc
    else c :: acc) []⟩ ++ "\""

/-- JSON.stringify; `none` is the undefined result (for undefined input).
    Object entries whose value stringifies to undefined are skipped, non-finite
    numbers serialise as null, exactly as in JS. -/
def jsonStringify : JVal → Option String
  | .undef => none
  | .null => some "null"
  | .bool b => some (if b then "true" else "false")
  | .num (.fin q) => some (jsDisplayNum (.fin q))
  | .num _ => some "null"
  | .str s => some (quoteJson s)
  | .arr xs =>
      some ("[" ++ String.intercalate ","
        (xs.attach.map fun ⟨x, hx⟩ => (jsonStringify x).getD "null") ++ "]")
  | .obj fs =>
      some ("\x7b" ++ String.intercalate ","
        (fs.attach.filterMap fun ⟨kv, hkv⟩ =>
          (jsonStringify kv.2).map fun sv => quoteJson kv.1 ++ ":" ++ sv) ++ "\x7d")
decreasing_by
  all_goals first
    | (have hlt := List.sizeOf_lt_of_mem hx; simp_all; omega)
    | (have hlt := List.sizeOf_lt_of_mem hkv; obtain ⟨a, b⟩ := kv; simp_all; omega)

def lookupField : List (String × JVal) → String → JVal
  | [], _ => .undef
  | (k, v) :: rest, key => if k = key then v else lookupField rest key

/-- Property read `v.key`; undefined on primitives and arrays for the keys the
    code reads. Reading a property of null or undefined throws in JS; every
    call site below either guards the receiver or models the throw explicitly. -/
def JVal.getD : JVal → String → JVal
  | .obj fs, k => lookupField fs k
  | _, _ => .undef

def hasKeyFields : List (String × JVal) → String → Bool
  | [], _ => false
  | (k, _) :: rest, key => k = key || hasKeyFields rest key

/-- The `in` operator: property presence on an object. -/
def JVal.hasKey : JVal → String → Bool
  | .obj fs, k => hasKeyFields fs k
  | _, _ => false

/-- JS `a || b`. -/
def jsOr (a b : JVal) : JVal :=
  if truthy a then a else b

/-- JS `a ?? b`. -/
def jsNullish (a b : JVal) : JVal :=
  match a with
  | .undef => b
  | .null => b
  | a => a

def typeofString : JVal → Bool
  | .str _ => true
  | _ => false

def JVal.isArr : JVal → Bool
  | .arr _ => true
  | _ => false

/-! Embedding of src/packages/llm/index.js. -/

def ALLOWED_TOOLS : List String :=
  ["navigate", "click", "click_point", "drag", "type", "hotkey", "long_press",
   "scroll", "wait_for_idle", "snapshot", "fetch", "read_file", "write_file", "shell"]

def DEFAULT_AUTONOMY : String := "assisted"

/-- The `clean` helper of normalizeArgs on strings: trim, then strip one pair of
    angle brackets around a non-empty bracket-free body, as the regex
    replace(/^<(.+)>$/, dollar-one) does (the dot does not cross line breaks). -/
def cleanStr (s : String) : String :=
  let t := jsTrim s
  match t.data with
  | '<' :: rest =>
    let body := rest.dropLast
    if rest.getLast? = some '>' && !body.isEmpty
        && body.all (fun c => c ≠ '\n' && c ≠ '\r') then
      ⟨body⟩
    else t
  | _ => t

def clean : JVal → JVal
  | .str s => .str (cleanStr s)
  | v => v

/-- Strict equality with the number literal 0. -/
def isNumZero : JVal → Bool
  | .num (.fin q) => q = 0
  | _ => false

/-- `parsePoint` of normalizeArgs: none is the undefined result. -/
def parsePoint (val : JVal) : Option JVal :=
  if !truthy val && !isNumZero val then none
  else if val.hasKey "x" && val.hasKey "y" then
    some (.obj [("x", .num (jsToNumber (val.getD "x"))), ("y", .num (jsToNumber (val.getD "y")))])
  else
    match val with
    | .str s =>
      let parts := (splitOnPred (fun c => c = ',' || c = ' ') s).map
        (fun p => jsToNumber (.str p))
      match parts with
      | x :: y :: _ =>
        if parts.all (fun n => match n with | .fin _ => true | _ => false) then
          some (.obj [("x", .num x), ("y", .num y)])
        else none
      | _ => none
    | v =>
      let nums := match v with
        | .arr xs => xs.map jsToNumber
        | _ => []
      match nums with
      | x :: y :: _ =>
        if nums.all (fun n => match n with | .fin _ => true | _ => false) then
          some (.obj [("x", .num x), ("y", .num y)])
        else none
      | _ => none

def optToJVal : Option JVal → JVal
  | none => .undef
  | some v => v

/-- normalizeArgs: named-argument objects pass through untouched; any other
    shape is read as a positional list and coerced through the per-tool table. -/
def normalizeArgs (tool : String) (args : JVal) : JVal :=
  match args with
  | .obj fs => .obj fs
  | _ =>
    let list : List JVal :=
      match args with
      | .arr xs => xs
      | .undef => []
      | .null => []
      | a => [a]
    let item : ℕ → JVal := fun i => (list.get? i).getD .undef
    match tool with
    | "navigate" => .obj [("url", clean (item 0))]
    | "click" => .obj [("id", clean (item 0))]
    | "click_point" => .obj [("point", optToJVal (parsePoint (item 0)))]
    | "drag" =>
      .obj [("from", optToJVal (parsePoint (item 0))),
            ("to", optToJVal (parsePoint (item 1))),
            ("durationMs", item 2)]
    | "type" => .obj [("id", clean (item 0)), ("text", item 1)]
    | "hotkey" =>
      .obj [("keys",
        match item 0 with
        | .arr xs => .arr xs
        | _ =>
          .arr (((splitOnPred (fun c => c = '+' || c = ' ') (jsJoin " " list)).filter
            (fun p => p ≠ "")).map .str))]
    | "long_press" =>
      .obj [("point", optToJVal (parsePoint (item 0))),
            ("durationMs", jsOr (item 1) (.num (.fin 800)))]
    | "scroll" => .obj [("deltaY", jsNullish (item 0) (item 1))]
    | "wait_for_idle" => .obj [("timeoutMs", item 0)]
    | "snapshot" => .obj []
    | "fetch" =>
      .obj [("url", clean (item 0)), ("method", item 1), ("body", item 2), ("headers", item 3)]
    | "read_file" =>
      .obj [("path", clean (item 0)), ("encoding", jsOr (item 1) (.str "utf8"))]
    | "write_file" =>
      .obj [("path", clean (item 0)), ("content", jsNullish (item 1) (.str "")),
            ("encoding", jsOr (item 2) (.str "utf8"))]
    | "shell" => .obj [("cmd", item 0), ("timeoutMs", item 1)]
    | _ => .obj []

/-- clampConfidence: non-finite coercions default to 0.6, finite values are
    clamped into the unit interval. -/
def clampConfidence (value : JVal) : ℚ :=
  match jsToNumber value with
  | .fin q => jmin 1 (jmax 0 q)
  | _ => mkRat 3 5

/-- createPlanId calls randomUUID; the embedding fixes the generated identifier
    to one concrete value — the surrounding logic only ever depends on it being
    a non-empty string. -/
def createPlanId : String := "plan-00000000-0000-4000-8000-000000000000"

def toStringSafe (v : JVal) : String :=
  match v with
  | .undef => ""
  | .null => ""
  | .str s => s
  | v => (jsonStringify v).getD ""

/-- The riskRaw chain `step.estimated_risk || step.risk || step.risk_level`. -/
def riskRawOf (s : JVal) : JVal :=
  jsOr (jsOr (s.getD "estimated_risk") (s.getD "risk")) (s.getD "risk_level")

/-- The per-step mapper body of normalizePlan, on a non-null receiver. -/
def normalizeStepCore (s : JVal) : JVal :=
  let tool := match s.getD "tool" with
    | .str t => jsTrim t
    | _ => ""
  let args := normalizeArgs tool (s.getD "args")
  let estimated_risk := match riskRawOf s with
    | .str r => jsToLower r
    | _ => "medium"
  let explanation :=
    if typeofString (s.getD "explanation") then s.getD "explanation"
    else jsOr (s.getD "reason") (.str "")
  let confidence := clampConfidence (jsNullish (s.getD "confidence") (s.getD "score"))
  .obj [("tool", .str tool), ("args", args), ("explanation", explanation),
        ("estimated_risk", .str estimated_risk), ("confidence", .num (.fin confidence))]

/-- One element of plan.steps: the `(step = {})` default replaces undefined by
    an empty object, while property access on a null element throws (none). -/
def normalizeStep : JVal → Option JVal
  | .null => none
  | .undef => some (normalizeStepCore (.obj []))
  | s => some (normalizeStepCore s)

def mapSteps : List JVal → Option (List JVal)
  | [] => some []
  | s :: rest =>
    match normalizeStep s with
    | none => none
    | some s' => (mapSteps rest).map (s' :: ·)

/-- One link of the autonomy chain `(typeof x === "string" && x) || rest`. -/
def pickNonEmptyStr (v : JVal) (rest : String) : String :=
  match v with
  | .str s => if s ≠ "" then s else rest
  | _ => rest

/-- The autonomy_level resolution chain of normalizePlan: explicit field, then
    the legacy aliases, then the caller fallback, then the global default. -/
def resolveAutonomy (plan : JVal) (fallbackAutonomy : String) : String :=
  pickNonEmptyStr (plan.getD "autonomy_level")
    (pickNonEmptyStr (plan.getD "autonomyLevel")
      (pickNonEmptyStr (plan.getD "capability_profile")
        (if fallbackAutonomy ≠ "" then fallbackAutonomy else DEFAULT_AUTONOMY)))

def stepsOf (v : JVal) : List JVal :=
  match v.getD "steps" with
  | .arr xs => xs
  | _ => []

/-- normalizePlan: non-objects pass through; otherwise the four wire fields are
    rebuilt. `none` models the TypeError thrown when steps contains null. -/
def normalizePlan (plan : JVal) (fallbackAutonomy : String) : Option JVal :=
  if !truthy plan || !(match plan with | .null => true | .arr _ => true | .obj _ => true | _ => false) then
    some plan
  else
    match mapSteps (stepsOf plan) with
    | none => none
    | some normalizedSteps =>
      some (.obj
        [("reasoning_summary",
          .str (toStringSafe (jsOr (jsOr (plan.getD "reasoning_summary") (plan.getD "summary")) (.str "")))),
         ("plan_id", jsOr (jsOr (plan.getD "plan_id") (plan.getD "planId")) (.str createPlanId)),
         ("autonomy_level", .str (resolveAutonomy plan fallbackAutonomy)),
         ("steps", .arr normalizedSteps)])

def isRiskEnum (s : String) : Bool :=
  s = "low" || s = "medium" || s = "high"

def validStep (v : JVal) : Bool :=
  match v with
  | .obj fs =>
    hasKeyFields fs "tool" && hasKeyFields fs "args" && hasKeyFields fs "explanation"
      && hasKeyFields fs "estimated_risk" && hasKeyFields fs "confidence"
      && fs.all (fun kv =>
          kv.1 = "tool" || kv.1 = "args" || kv.1 = "explanation"
            || kv.1 = "estimated_risk" || kv.1 = "confidence")
      && (match lookupField fs "tool" with
          | .str t => ALLOWED_TOOLS.contains t
          | _ => false)
      && (match lookupField fs "args" with
          | .obj _ => true
          | _ => false)
      && typeofString (lookupField fs "explanation")
      && (match lookupField fs "estimated_risk" with
          | .str r => isRiskEnum r
          | _ => false)
      && (match lookupField fs "confidence" with
          | .num (.fin q) => decide (0 ≤ q) && decide (q ≤ 1)
          | _ => false)
  | _ => false

/-- The compiled ajv validator for PLAN_SCHEMA: an object with exactly the four
    required fields, enum-checked autonomy, and a non-empty steps array of
    closed step objects. -/
def validate (v : JVal) : Bool :=
  match v with
  | .obj fs =>
    hasKeyFields fs "reasoning_summary" && hasKeyFields fs "plan_id"
      && hasKeyFields fs "autonomy_level" && hasKeyFields fs "steps"
      && fs.all (fun kv =>
          kv.1 = "reasoning_summary" || kv.1 = "plan_id"
            || kv.1 = "autonomy_level" || kv.1 = "steps")
      && typeofString (lookupField fs "reasoning_summary")
      && typeofString (lookupField fs "plan_id")
      && (match lookupField fs "autonomy_level" with
          | .str a => a = "assisted" || a = "semi_auto" || a = "auto"
          | _ => false)
      && (match lookupField fs "steps" with
          | .arr xs => !xs.isEmpty && xs.all validStep
          | _ => false)
  | _ => false

inductive PlanCheck where
  | typeError
  | invalid (plan : JVal)
  | valid (plan : JVal)

def PlanCheck.isInvalid : PlanCheck → Bool
  | .invalid _ => true
  | _ => false

/-- validatePlanSchema: normalize, then run the schema validator. -/
def validatePlanSchema (plan : JVal) (fallbackAutonomy : String) : PlanCheck :=
  match normalizePlan plan fallbackAutonomy with
  | none => .typeError
  | some normalized => if validate normalized then .valid normalized else .invalid normalized

/-- The content of one chat response, with JSON.parse abstracted into the
    shape of its result: absent/empty content, content that fails to parse, or
    content that parses to a structured value. -/
inductive ChatContent where
  | missing
  | malformed (raw : String)
  | wellFormed (v : JVal) (raw : String)

def ChatContent.rawOf : ChatContent → String
  | .missing => ""
  | .malformed raw => raw
  | .wellFormed _ raw => raw

/-- One client.chat call: either the transport throws or a response arrives. -/
inductive ChatResult where
  | failure (msg : String)
  | success (content : ChatContent)

inductive ParseOutcome where
  | plan (v : JVal)
  | parseErr (name : String)

/-- parsePlanContent: falsy content is empty_response, unparseable content is
    invalid_json, otherwise the parsed object. -/
def parsePlanContent : ChatContent → ParseOutcome
  | .missing => .parseErr "empty_response"
  | .malformed _ => .parseErr "invalid_json"
  | .wellFormed v _ => .plan v

inductive PlanResult where
  | ok (plan : JVal) (raw : String)
  | err (name : String)
  | thrown

/-- The generation loop of planGoal: `fuel` counts the remaining iterations of
    `for (attempt = 0; attempt < 2; attempt++)`, `attempt` indexes responses.
    The second component counts chat calls made. -/
def planLoop (responses : ℕ → ChatResult) (fallbackAutonomy : String) :
    ℕ → ℕ → PlanResult × ℕ
  | _, 0 => (.err "schema_validation_failed", 0)
  | attempt, fuel + 1 =>
    match responses attempt with
    | .failure _ => (.err "ollama_error", 1)
    | .success content =>
      match parsePlanContent content with
      | .plan v =>
        match validatePlanSchema v fallbackAutonomy with
        | .valid p => (.ok p content.rawOf, 1)
        | .typeError => (.thrown, 1)
        | .invalid _ =>
          let r := planLoop responses fallbackAutonomy (attempt + 1) fuel
          (r.1, r.2 + 1)
      | .parseErr _ =>
        let r := planLoop responses fallbackAutonomy (attempt + 1) fuel
        (r.1, r.2 + 1)

/-- planGoal with the inference client abstracted into the sequence of its
    responses; the second component of the pair counts the chat calls made. -/
def planGoal (goal : String) (responses : ℕ → ChatResult)
    (fallbackAutonomy : String) : PlanResult × ℕ :=
  if jsTrim goal = "" then (.err "invalid_goal", 0)
  else planLoop responses fallbackAutonomy 0 2

/-! Embedding of src/packages/core/index.js. Plans that reach the normalizer,
    guardrail validator and dispatcher are schema-validated values, so their
    step list is embedded with typed fields; a point component is `none` when
    it is absent or non-finite (NaN or an infinity), the two cases
    Number.isFinite rejects together. -/

structure Viewport where
  width : ℚ
  height : ℚ
deriving DecidableEq, Repr

structure JPoint where
  x : Option ℚ
  y : Option ℚ
deriving DecidableEq, Repr

/-- The argument fields of a step that the normalizer and the guardrail read;
    `fromPt`/`toPt` embed the `from`/`to` drag arguments (`from` is reserved in
    Lean). Arguments of other tools are never touched by the embedded paths. -/
structure CoreArgs where
  id : Option String
  text : Option String
  point : Option JPoint
  fromPt : Option JPoint
  toPt : Option JPoint
deriving DecidableEq, Repr

structure CoreStep where
  tool : String
  args : CoreArgs
deriving DecidableEq, Repr

structure CorePlan where
  steps : List CoreStep
deriving DecidableEq, Repr

def noArgs : CoreArgs := ⟨none, none, none, none, none⟩

/-- resolvePointAbs: null for a missing point or non-finite components; a point
    with both components in [-1,1] scales by the viewport (default 1280x720),
    and the result is floored at 0 on both axes. -/
def resolvePointAbs (point : Option JPoint) (viewport : Option Viewport) :
    Option (ℚ × ℚ) :=
  match point with
  | none => none
  | some pt =>
    match pt.x, pt.y with
    | some x, some y =>
      let size := viewport.getD ⟨1280, 720⟩
      let norm : ℚ × ℚ :=
        if jabs x ≤ 1 ∧ jabs y ≤ 1 then (qmul x size.width, qmul y size.height)
        else (x, y)
      some (jmax 0 norm.1, jmax 0 norm.2)
    | _, _ => none

/-- clipPointToViewport: clamp into [0,width] x [0,height], defaulting a missing
    viewport dimension to 1280x720. -/
def clipPointToViewport (point : Option (ℚ × ℚ)) (viewport : Option Viewport) :
    Option (ℚ × ℚ) :=
  match point with
  | none => none
  | some p =>
    let w := (viewport.map Viewport.width).getD 1280
    let h := (viewport.map Viewport.height).getD 720
    some (jmin (jmax p.1 0) w, jmin (jmax p.2 0) h)

/-- The `adjustPoint` closure of normalizeCoordinates: resolve then clip, both
    against the page viewport (`vp`), the clip seeing the defaulted value. -/
def adjustPoint (vp : Option Viewport) (pt : Option JPoint) : Option (ℚ × ℚ) :=
  clipPointToViewport (resolvePointAbs pt vp) (some (vp.getD ⟨1280, 720⟩))

def mkJPoint (p : ℚ × ℚ) : JPoint := ⟨some p.1, some p.2⟩

/-- The per-step body of normalizeCoordinates: click_point and long_press steps
    carrying a point get it adjusted, drag steps get both endpoints adjusted;
    `none` is the `continue` that drops the step. -/
def adjustStep (vp : Option Viewport) (s : CoreStep) : Option CoreStep :=
  if s.tool = "click_point" then
    match s.args.point with
    | some pt =>
      (adjustPoint vp (some pt)).map fun q =>
        { s with args := { s.args with point := some (mkJPoint q) } }
    | none => some s
  else if s.tool = "drag" then
    match adjustPoint vp s.args.fromPt, adjustPoint vp s.args.toPt with
    | some f, some t =>
      some { s with args := { s.args with fromPt := some (mkJPoint f), toPt := some (mkJPoint t) } }
    | _, _ => none
  else if s.tool = "long_press" then
    match s.args.point with
    | some pt =>
      (adjustPoint vp (some pt)).map fun q =>
        { s with args := { s.args with point := some (mkJPoint q) } }
    | none => some s
  else some s

def skipMsg (idx : ℕ) (s : CoreStep) : String :=
  if s.tool = "drag" then "skip step " ++ toString (idx + 1) ++ ": invalid drag points"
  else if s.tool = "long_press" then "skip step " ++ toString (idx + 1) ++ ": invalid long_press point"
  else "skip step " ++ toString (idx + 1) ++ ": invalid point"

/-- The loop of normalizeCoordinates: kept steps in order plus the skip notices
    handed to the logger, indexed from `idx`. -/
def normSteps (vp : Option Viewport) : ℕ → List CoreStep → List CoreStep × List String
  | _, [] => ([], [])
  | idx, s :: rest =>
    let r := normSteps vp (idx + 1) rest
    match adjustStep vp s with
    | some s' => (s' :: r.1, r.2)
    | none => (r.1, skipMsg idx s :: r.2)

/-- normalizeCoordinates: empty plans return unchanged; otherwise every step is
    adjusted or dropped. The second component collects the skip notices for
    the logger (the source only emits them when a logger is supplied). -/
def normalizeCoordinates (plan : CorePlan) (vp : Option Viewport) :
    CorePlan × List String :=
  match plan.steps with
  | [] => (plan, [])
  | steps =>
    let r := normSteps vp 0 steps
    ({ steps := r.1 }, r.2)

structure ToolCatalogEntry where
  name : String
  schema : String
  risk_level : String
  description : String
deriving DecidableEq, Repr

def BASE_TOOL_CATALOG : List ToolCatalogEntry :=
  [⟨"navigate", "navigate(\x7b url \x7d)", "medium", "Change page"⟩,
   ⟨"click", "click(\x7b id \x7d)", "low", "Click element"⟩,
   ⟨"click_point", "click_point(\x7b point:\x7bx,y\x7d, button?, clickCount? \x7d)", "medium", "Click by screen coordinates"⟩,
   ⟨"drag", "drag(\x7b from:\x7bx,y\x7d, to:\x7bx,y\x7d, durationMs? \x7d)", "medium", "Drag from A to B"⟩,
   ⟨"type", "type(\x7b id, text \x7d)", "medium", "Fill text"⟩,
   ⟨"hotkey", "hotkey(\x7b keys:string[] \x7d)", "medium", "Send chorded keys"⟩,
   ⟨"long_press", "long_press(\x7b point:\x7bx,y\x7d, durationMs? \x7d)", "medium", "Press and hold at point"⟩,
   ⟨"scroll", "scroll(\x7b deltaY \x7d)", "low", "Scroll viewport"⟩,
   ⟨"wait_for_idle", "wait_for_idle(\x7b timeoutMs \x7d)", "low", "Wait for idle"⟩,
   ⟨"snapshot", "snapshot()", "low", "Capture screenshot"⟩]

def EXTENDED_TOOL_CATALOG : List ToolCatalogEntry :=
  [⟨"shell", "shell(\x7b cmd, timeoutMs? \x7d)", "high", "Run OS shell command"⟩,
   ⟨"read_file", "read_file(\x7b path, encoding? \x7d)", "medium", "Read local file"⟩,
   ⟨"write_file", "write_file(\x7b path, content, encoding? \x7d)", "high", "Write local file"⟩,
   ⟨"fetch", "fetch(\x7b url, method?, headers?, body? \x7d)", "medium", "HTTP request and return status/body snippet"⟩]

/-- buildToolCatalog: the extended catalog only for the pro/auto/unleashed
    profiles. -/
def buildToolCatalog (profileName : String) : List ToolCatalogEntry :=
  if ["pro", "auto", "unleashed"].contains profileName then
    BASE_TOOL_CATALOG ++ EXTENDED_TOOL_CATALOG
  else BASE_TOOL_CATALOG

/-- A guardrail profile; `allow_password = none` models the field being absent
    (only `=== false` triggers the password check), `max_steps = 0` the falsy
    values that skip the step-count check. -/
structure GuardrailProfile where
  description : String
  max_steps : ℕ
  blocked_tools : List String
  allow_password : Option Bool
  require_origin_confirmation : Bool
  autonomy_level : String
deriving DecidableEq, Repr

def emptyProfile : GuardrailProfile := ⟨"", 0, [], none, false, ""⟩

def defaultProfile : GuardrailProfile :=
  ⟨"Conservative defaults for manual review", 12, ["shell", "write_file"],
   some false, true, "assisted"⟩

def DEFAULT_GUARDRAILS_profiles : List (String × GuardrailProfile) :=
  [("default", defaultProfile),
   ("pro", ⟨"Lenient but still safe profile", 25, ["shell", "write_file"],
            some false, true, "semi_auto"⟩),
   ("auto", ⟨"Highest autonomy; still no password fields", 30, [],
             some true, false, "auto"⟩),
   ("unleashed", ⟨"Unrestricted. User accepts full risk.", 40, [],
                  some true, false, "auto"⟩),
   ("mobile", ⟨"Mobile/touch profile with coordinate tools enabled, shell blocked", 25,
               ["shell", "write_file"], some false, true, "semi_auto"⟩)]

def lookupProfile : List (String × GuardrailProfile) → String → Option GuardrailProfile
  | [], _ => none
  | (k, p) :: rest, key => if k = key then some p else lookupProfile rest key

def selectGuardrailFallback (profiles : List (String × GuardrailProfile))
    (profileName : Option String) : String × GuardrailProfile :=
  match lookupProfile profiles "default" with
  | some p => ("default", p)
  | none =>
    match profiles with
    | (k, p) :: _ => (k, p)
    | [] => (profileName.getD "default", emptyProfile)

/-- selectGuardrailProfile: the named profile, else the default profile, else
    the first profile of the document, else an empty profile. -/
def selectGuardrailProfile (profiles : List (String × GuardrailProfile))
    (profileName : Option String) : String × GuardrailProfile :=
  match profileName with
  | some n =>
    match lookupProfile profiles n with
    | some p => (n, p)
    | none => selectGuardrailFallback profiles profileName
  | none => selectGuardrailFallback profiles profileName

/-- The id string the password heuristic inspects: the id argument defaulted
    to the empty string, lowercased. -/
def passwordLike (id : Option String) : Bool :=
  let l := jsToLower (id.getD "")
  containsSub l "password" || containsSub l "pwd"

inductive PolicyVerdict where
  | ok
  | invalidPlan
  | maxStepsExceeded (max actual : ℕ)
  | unknownTool (step : ℕ) (tool : String)
  | toolBlocked (step : ℕ) (tool : String)
  | passwordFieldBlocked (step : ℕ)
deriving DecidableEq, Repr

/-- The `error` string of the verdict object, none for `ok: true`. -/
def PolicyVerdict.errName : PolicyVerdict → Option String
  | .ok => none
  | .invalidPlan => some "invalid_plan"
  | .maxStepsExceeded _ _ => some "max_steps_exceeded"
  | .unknownTool _ _ => some "unknown_tool"
  | .toolBlocked _ _ => some "tool_blocked"
  | .passwordFieldBlocked _ => some "password_field_blocked"

/-- The per-step scan of validatePlanAgainst, in source order: catalog
    membership, blocked set, then the password heuristic for type steps. -/
def stepChecks (allowedTools : List String) (profile : GuardrailProfile) :
    ℕ → List CoreStep → PolicyVerdict
  | _, [] => .ok
  | idx, s :: rest =>
    if !allowedTools.contains s.tool then .unknownTool idx s.tool
    else if profile.blocked_tools.contains s.tool then .toolBlocked idx s.tool
    else if profile.allow_password = some false && s.tool = "type"
        && passwordLike s.args.id then .passwordFieldBlocked idx
    else stepChecks allowedTools profile (idx + 1) rest

/-- validatePlanAgainst on a plan that has a steps array (the missing-steps
    guard returning invalid_plan is unreachable for the typed plans modelled
    here): the step-count ceiling first, then the per-step scan. -/
def validatePlanAgainst (plan : CorePlan) (profile : GuardrailProfile)
    (toolCatalog : List ToolCatalogEntry) : PolicyVerdict :=
  let allowedTools := toolCatalog.map ToolCatalogEntry.name
  if profile.max_steps ≠ 0 ∧ plan.steps.length > profile.max_steps then
    .maxStepsExceeded profile.max_steps plan.steps.length
  else stepChecks allowedTools profile 0 plan.steps

/-- The result of one executeStep call: it returns, or it throws with a
    message (assertNotKilled throws "killed"). -/
inductive StepOutcome where
  | ok
  | raise (msg : String)

structure RunResult where
  status : String
  error : Option String
  detail : Option String
deriving DecidableEq, Repr

/-- The dispatch loop of runPocSession: the kill flag is polled before each
    step; a throw whose message is "killed" is reported as the killed outcome
    by the surrounding catch, any other as failed. The second component counts
    executeStep calls. -/
def execLoop (killBefore : ℕ → Bool) (stepResult : ℕ → StepOutcome) :
    ℕ → List CoreStep → RunResult × ℕ
  | _, [] => (⟨"ok", none, none⟩, 0)
  | i, _ :: rest =>
    if killBefore i then (⟨"killed", none, none⟩, 0)
    else
      match stepResult i with
      | .ok =>
        let r := execLoop killBefore stepResult (i + 1) rest
        (r.1, r.2 + 1)
      | .raise e =>
        if e = "killed" then (⟨"killed", none, none⟩, 1)
        else (⟨"failed", some e, none⟩, 1)

/-- One runPocSession invocation with the collaborators abstracted into their
    observable behaviour: whether a confirmPlan hook was supplied and what it
    answers, the plan-acquisition outcome (planGoal or precomputed-plan schema
    validation, none when either errors), the page viewport, the kill flag as
    polled before each step index, and the driver outcome of each step. -/
structure RunConfig where
  profileName : String
  confirmPlanProvided : Bool
  confirmApproves : CorePlan → Bool
  viewport : Option Viewport
  acquisition : Option CorePlan
  killBefore : ℕ → Bool
  stepResult : ℕ → StepOutcome

/-- runPocSession: missing confirmPlan hook, plan acquisition, coordinate
    normalization, guardrail check, confirmation, then the dispatch loop, in
    source order; the second component counts executeStep calls. -/
def runPocSession (cfg : RunConfig) : RunResult × ℕ :=
  if !cfg.confirmPlanProvided then
    (⟨"policy_error", none, some "confirm_required_not_provided"⟩, 0)
  else
    match cfg.acquisition with
    | none => (⟨"planner_error", none, none⟩, 0)
    | some plan0 =>
      let plan := (normalizeCoordinates plan0 cfg.viewport).1
      match validatePlanAgainst plan
          (selectGuardrailProfile DEFAULT_GUARDRAILS_profiles (some cfg.profileName)).2
          (buildToolCatalog cfg.profileName) with
      | .ok =>
        if cfg.confirmApproves plan then
          execLoop cfg.killBefore cfg.stepResult 0 plan.steps
        else (⟨"rejected_by_user", none, none⟩, 0)
      | _ => (⟨"policy_block", none, none⟩, 0)

/-- The receiver the per-step mapper acts on: the `(step = {})` default turns
    an undefined element into an empty object. -/
def stepRecv : JVal → JVal
  | .undef => .obj []
  | s => s

/-- A step element whose normalized explanation is a string: its explanation
    is a string, or its reason is falsy or a string. (null elements throw
    before any field is built.) -/
def stepExplGood (s : JVal) : Bool :=
  match s with
  | .null => true
  | s0 =>
    typeofString ((stepRecv s0).getD "explanation")
      || !truthy ((stepRecv s0).getD "reason")
      || typeofString ((stepRecv s0).getD "reason")

/-- A step element whose risk chain does not end in the empty string (the
    `||` chain returns its last operand even when that is a falsy string). -/
def stepRiskGood (s : JVal) : Bool :=
  match s with
  | .null => true
  | s0 =>
    match riskRawOf (stepRecv s0) with
    | .str r => r ≠ ""
    | _ => true

/-- Every step element of the value yields a string explanation and a usable
    risk string under normalization. -/
def goodSteps (v : JVal) : Bool :=
  (stepsOf v).all fun s => stepExplGood s && stepRiskGood s

/-- One generation attempt that falls through to the retry path of planGoal:
    the
    response arrived but did not parse as one object, or parsed and failed
    schema validation. -/
def attemptRetries (responses : ℕ → ChatResult) (fallbackAutonomy : String)
    (attempt : ℕ) : Bool :=
  match responses attempt with
  | .failure _ => false
  | .success content =>
    match parsePlanContent content with
    | .plan v => (validatePlanSchema v fallbackAutonomy).isInvalid
    | .parseErr _ => true

/-- The response of a chat call arrived but JSON.parse throws on it. -/
def ChatResult.isMalformed : ChatResult → Bool
  | .success (.malformed _) => true
  | _ => false

/-- A schema-conformant plan value used as a generation fixture. -/
def validPlanFixture : JVal := .obj
  [("reasoning_summary", .str "r"),
   ("plan_id", .str "p1"),
   ("autonomy_level", .str "assisted"),
   ("steps", .arr [.obj
     [("tool", .str "click"), ("args", .obj [("id", .str "btn")]),
      ("explanation", .str "e"), ("estimated_risk", .str "low"),
      ("confidence", .num (.fin (mkRat 1 2)))]])]

/-- A point is absolute (not read as a viewport-relative fraction, i.e. not
    with both components in [-1,1]) and already clipped to the viewport box. -/
def pointAbsClipped (vp : Viewport) : JPoint → Bool
  | ⟨some x, some y⟩ =>
    !(decide (jabs x ≤ 1) && decide (jabs y ≤ 1))
      && decide (0 ≤ x) && decide (x ≤ vp.width)
      && decide (0 ≤ y) && decide (y ≤ vp.height)
  | _ => false

/-- Every coordinate argument of a step carries an already-clipped absolute
    point; steps of non-coordinate tools are unconstrained. -/
def stepAbsClipped (vp : Viewport) (s : CoreStep) : Bool :=
  if s.tool = "click_point" then
    match s.args.point with
    | some pt => pointAbsClipped vp pt
    | none => false
  else if s.tool = "drag" then
    (match s.args.fromPt with
     | some pt => pointAbsClipped vp pt
     | none => false)
    && (match s.args.toPt with
        | some pt => pointAbsClipped vp pt
        | none => false)
  else if s.tool = "long_press" then
    match s.args.point with
    | some pt => pointAbsClipped vp pt
    | none => false
  else true

/-! Theorems. The first block relates the kernel-computable arithmetic of the
    embedding to the Mathlib operations, so that every use of qmul, qadd, jmin,
    jmax and jabs above is provably ordinary rational arithmetic. -/

theorem qmul_eq_mul (a b : ℚ) : qmul a b = a * b := by
  unfold qmul
  rw [Rat.mkRat_eq_div]
  push_cast
  rw [← div_mul_div_comm, Rat.num_div_den, Rat.num_div_den]

theorem qadd_eq_add (a b : ℚ) : qadd a b = a + b := by
  unfold qadd
  rw [Rat.mkRat_eq_div]
  push_cast
  conv_rhs => rw [← Rat.num_div_den a, ← Rat.num_div_den b]
  rw [div_add_div _ _ (by positivity) (by positivity)]
  ring_nf

theorem jmax_eq_max (a b : ℚ) : jmax a b = max a b := by
  rw [jmax, max_def]

theorem jmin_eq_min (a b : ℚ) : jmin a b = min a b := by
  rw [jmin, min_def]

theorem jabs_eq_abs (a : ℚ) : jabs a = |a| := by
  rw [jabs]
  rcases lt_or_le a 0 with h | h
  · rw [if_pos h, abs_of_neg h]
  · rw [if_neg (not_lt.mpr h), abs_of_nonneg h]

theorem jmax_collapse (a : ℚ) : jmax (jmax 0 a) 0 = jmax a 0 := by
  rw [jmax_eq_max, jmax_eq_max, jmax_eq_max, max_comm (0 : ℚ) a, max_assoc, max_self]

/-- Claim C3: in plan normalization, a coordinate point whose two components
    both lie in [-1,1] is scaled by the viewport width and height and then
    clipped to [0,width] x [0,height]; every resolved point lands inside the
    viewport box, an absolute point beyond the right edge is clipped to the
    width, and the two concrete instances of the claim hold: (0.1, 0.2) on a
    1000x800 viewport normalizes to (100, 160), and (1400, 50) on a 1280-wide
    viewport clips to x = 1280. -/
theorem normalizeCoordinates_scales_and_clips :
    (∀ (vp : Viewport) (x y : ℚ), jabs x ≤ 1 → jabs y ≤ 1 →
      adjustPoint (some vp) (some ⟨some x, some y⟩) =
        some (jmin (jmax (qmul x vp.width) 0) vp.width,
              jmin (jmax (qmul y vp.height) 0) vp.height))
    ∧ (∀ (vp : Viewport) (x y : ℚ) (r : ℚ × ℚ), 0 ≤ vp.width → 0 ≤ vp.height →
        adjustPoint (some vp) (some ⟨some x, some y⟩) = some r →
        0 ≤ r.1 ∧ r.1 ≤ vp.width ∧ 0 ≤ r.2 ∧ r.2 ≤ vp.height)
    ∧ (∀ (vp : Viewport) (x y : ℚ), ¬(jabs x ≤ 1 ∧ jabs y ≤ 1) →
        vp.width ≤ x →
        (adjustPoint (some vp) (some ⟨some x, some y⟩)).map Prod.fst = some vp.width)
    ∧ adjustPoint (some ⟨1000, 800⟩) (some ⟨some (mkRat 1 10), some (mkRat 1 5)⟩)
        = some (100, 160)
    ∧ adjustPoint (some ⟨1280, 720⟩) (some ⟨some 1400, some 50⟩) = some (1280, 50)
    ∧ normalizeCoordinates
        ⟨[⟨"click_point", ⟨none, none, some ⟨some (mkRat 1 10), some (mkRat 1 5)⟩, none, none⟩⟩]⟩
        (some ⟨1000, 800⟩)
      = (⟨[⟨"click_point", ⟨none, none, some ⟨some 100, some 160⟩, none, none⟩⟩]⟩, []) := by
  refine ⟨?_, ?_, ?_, by decide, by decide, by decide⟩
  · intro vp x y h1 h2
    simp only [adjustPoint, resolvePointAbs, clipPointToViewport, Option.getD, Option.map]
    rw [if_pos ⟨h1, h2⟩]
    simp only [jmax_collapse]
  · intro vp x y r hw hh hr
    simp only [adjustPoint, resolvePointAbs, clipPointToViewport, Option.getD, Option.map] at hr
    split at hr
    all_goals
      cases hr
      constructor
      · rw [jmin_eq_min, jmax_eq_max, jmax_eq_max]
        exact le_min (le_max_right _ _) hw
      constructor
      · rw [jmin_eq_min]
        exact min_le_right _ _
      constructor
      · rw [jmin_eq_min, jmax_eq_max, jmax_eq_max]
        exact le_min (le_max_right _ _) hh
      · rw [jmin_eq_min]
        exact min_le_right _ _
  · intro vp x y hno hx
    simp only [adjustPoint, resolvePointAbs, clipPointToViewport, Option.getD, Option.map]
    rw [if_neg hno]
    simp only [Option.map_some, jmin_eq_min, jmax_eq_max]
    have : vp.width ≤ max (max 0 x) 0 :=
      le_trans (le_trans hx (le_max_right 0 x)) (le_max_left _ _)
    rw [min_eq_right this]

/-- Witness for C3 at the first concrete instance of the claim. -/
theorem normalizeCoordinates_scales_and_clips_witness :
    adjustPoint (some ⟨1000, 800⟩) (some ⟨some (mkRat 1 10), some (mkRat 1 5)⟩) =
      some (jmin (jmax (qmul (mkRat 1 10) 1000) 0) 1000,
            jmin (jmax (qmul (mkRat 1 5) 800) 0) 800) :=
  normalizeCoordinates_scales_and_clips.1 ⟨1000, 800⟩ (mkRat 1 10) (mkRat 1 5)
    (by decide) (by decide)

theorem adjustPoint_fixed (vp : Option Viewport) (pt : JPoint)
    (h : pointAbsClipped (vp.getD ⟨1280, 720⟩) pt = true) :
    ∃ x y, pt = ⟨some x, some y⟩ ∧ adjustPoint vp (some pt) = some (x, y) := by
  obtain ⟨ox, oy⟩ := pt
  cases ox with
  | none => simp [pointAbsClipped] at h
  | some x =>
    cases oy with
    | none => simp [pointAbsClipped] at h
    | some y =>
      simp only [pointAbsClipped, Bool.and_eq_true, Bool.not_eq_true',
        Bool.and_eq_false_iff, decide_eq_true_iff, decide_eq_false_iff_not] at h
      obtain ⟨⟨⟨⟨hrel, h0x⟩, hxw⟩, h0y⟩, hyh⟩ := h
      refine ⟨x, y, rfl, ?_⟩
      simp only [adjustPoint, resolvePointAbs, clipPointToViewport, Option.getD, Option.map]
      rw [if_neg (by rcases hrel with h | h <;> simp [h])]
      have e1 : jmax 0 x = x := by rw [jmax_eq_max, max_eq_right h0x]
      have e2 : jmax 0 y = y := by rw [jmax_eq_max, max_eq_right h0y]
      rw [e1, e2]
      have f1 : jmin (jmax x 0) (vp.getD ⟨1280, 720⟩).width = x := by
        rw [jmax_eq_max, max_eq_left h0x, jmin_eq_min, min_eq_left hxw]
      have f2 : jmin (jmax y 0) (vp.getD ⟨1280, 720⟩).height = y := by
        rw [jmax_eq_max, max_eq_left h0y, jmin_eq_min, min_eq_left hyh]
      cases vp with
      | none => simpa using ⟨f1, f2⟩
      | some v => simpa using ⟨f1, f2⟩

theorem adjustStep_fixed (vp : Option Viewport) (s : CoreStep)
    (h : stepAbsClipped (vp.getD ⟨1280, 720⟩) s = true) :
    adjustStep vp s = some s := by
  obtain ⟨tool, args⟩ := s
  obtain ⟨id, text, point, fromPt, toPt⟩ := args
  unfold stepAbsClipped at h
  unfold adjustStep
  by_cases h1 : tool = "click_point"
  · rw [if_pos h1] at h ⊢
    dsimp only at h ⊢
    cases point with
    | none => cases h
    | some pt =>
      dsimp only at h ⊢
      obtain ⟨x, y, hpt, hadj⟩ := adjustPoint_fixed vp pt h
      rw [hadj]
      subst hpt
      rfl
  · rw [if_neg h1] at h ⊢
    by_cases h2 : tool = "drag"
    · rw [if_pos h2] at h ⊢
      dsimp only at h ⊢
      rw [Bool.and_eq_true] at h
      obtain ⟨hf, ht⟩ := h
      cases fromPt with
      | none => cases hf
      | some pf =>
        cases toPt with
        | none => cases ht
        | some pt =>
          dsimp only at hf ht ⊢
          obtain ⟨x1, y1, hp1, hadj1⟩ := adjustPoint_fixed vp pf hf
          obtain ⟨x2, y2, hp2, hadj2⟩ := adjustPoint_fixed vp pt ht
          rw [hadj1, hadj2]
          subst hp1
          subst hp2
          rfl
    · rw [if_neg h2] at h ⊢
      by_cases h3 : tool = "long_press"
      · rw [if_pos h3] at h ⊢
        dsimp only at h ⊢
        cases point with
        | none => cases h
        | some pt =>
          dsimp only at h ⊢
          obtain ⟨x, y, hpt, hadj⟩ := adjustPoint_fixed vp pt h
          rw [hadj]
          subst hpt
          rfl
      · rw [if_neg h3]

theorem normSteps_fixed (vp : Option Viewport) (l : List CoreStep)
    (h : ∀ s ∈ l, adjustStep vp s = some s) : ∀ idx, normSteps vp idx l = (l, []) := by
  induction l with
  | nil => intro idx; rfl
  | cons s rest ih =>
    intro idx
    have hs := h s (List.mem_cons_self s rest)
    have hrest := ih (fun t ht => h t (List.mem_cons_of_mem s ht))
    unfold normSteps
    rw [hrest (idx + 1), hs]

theorem normalizeCoordinates_fixed (plan : CorePlan) (vp : Option Viewport)
    (h : ∀ s ∈ plan.steps, stepAbsClipped (vp.getD ⟨1280, 720⟩) s = true) :
    normalizeCoordinates plan vp = (plan, []) := by
  obtain ⟨steps⟩ := plan
  cases steps with
  | nil => rfl
  | cons s rest =>
    have hfix := normSteps_fixed vp (s :: rest) (fun t ht => adjustStep_fixed vp t (h t ht)) 0
    unfold normalizeCoordinates
    dsimp only
    rw [hfix]

/-- Claim C4: schema plan values aside, coordinate normalization is idempotent
    on plans whose coordinate steps carry absolute points already clipped to
    the viewport: normalizing a normalized plan changes nothing. Such plans
    are in fact fixed points of the normalizer, which the proof establishes. -/
theorem normalizeCoordinates_idempotent_on_clipped_abs (plan : CorePlan)
    (vp : Option Viewport)
    (h : ∀ s ∈ plan.steps, stepAbsClipped (vp.getD ⟨1280, 720⟩) s = true) :
    normalizeCoordinates (normalizeCoordinates plan vp).1 vp =
      normalizeCoordinates plan vp := by
  rw [normalizeCoordinates_fixed plan vp h, normalizeCoordinates_fixed plan vp h]

/-- Witness for C4: a two-step plan with clipped absolute points. -/
theorem normalizeCoordinates_idempotent_on_clipped_abs_witness :
    normalizeCoordinates
        (normalizeCoordinates
          ⟨[⟨"click_point", ⟨none, none, some ⟨some 5, some 6⟩, none, none⟩⟩,
            ⟨"drag", ⟨none, none, none, some ⟨some 10, some 20⟩, some ⟨some 700, some 500⟩⟩⟩]⟩
          (some ⟨1000, 800⟩)).1 (some ⟨1000, 800⟩) =
      normalizeCoordinates
        ⟨[⟨"click_point", ⟨none, none, some ⟨some 5, some 6⟩, none, none⟩⟩,
          ⟨"drag", ⟨none, none, none, some ⟨some 10, some 20⟩, some ⟨some 700, some 500⟩⟩⟩]⟩
        (some ⟨1000, 800⟩) :=
  normalizeCoordinates_idempotent_on_clipped_abs _ _ (by decide)

theorem normSteps_fst (vp : Option Viewport) (l : List CoreStep) :
    ∀ idx, (normSteps vp idx l).1 = l.filterMap (adjustStep vp) := by
  induction l with
  | nil => intro idx; rfl
  | cons s rest ih =>
    intro idx
    unfold normSteps
    rw [List.filterMap_cons]
    cases hs : adjustStep vp s with
    | none => simpa using ih (idx + 1)
    | some s' => simpa using ih (idx + 1)

theorem normSteps_snd_nil (vp : Option Viewport) (l : List CoreStep)
    (h : ∀ s ∈ l, (adjustStep vp s).isSome) : ∀ idx, (normSteps vp idx l).2 = [] := by
  induction l with
  | nil => intro idx; rfl
  | cons s rest ih =>
    intro idx
    unfold normSteps
    cases hs : adjustStep vp s with
    | none =>
      have := h s (List.mem_cons_self s rest)
      rw [hs] at this
      cases this
    | some s' => simpa using ih (fun t ht => h t (List.mem_cons_of_mem s ht)) (idx + 1)

theorem normSteps_snd_one (vp : Option Viewport) (pre post : List CoreStep)
    (bad : CoreStep) (hbad : adjustStep vp bad = none)
    (hpre : ∀ s ∈ pre, (adjustStep vp s).isSome)
    (hpost : ∀ s ∈ post, (adjustStep vp s).isSome) :
    ∀ idx, (normSteps vp idx (pre ++ bad :: post)).2.length = 1 := by
  induction pre with
  | nil =>
    intro idx
    simp only [List.nil_append]
    unfold normSteps
    rw [hbad]
    simp [normSteps_snd_nil vp post hpost (idx + 1)]
  | cons p pre ih =>
    intro idx
    have hp := hpre p (List.mem_cons_self p pre)
    simp only [List.cons_append]
    unfold normSteps
    cases hs : adjustStep vp p with
    | none =>
      rw [hs] at hp
      cases hp
    | some p' =>
      simpa using ih (fun t ht => hpre t (List.mem_cons_of_mem p ht)) (idx + 1)

theorem filterMap_length_of_isSome {α β : Type} (f : α → Option β) (l : List α)
    (h : ∀ s ∈ l, (f s).isSome) : (l.filterMap f).length = l.length := by
  induction l with
  | nil => rfl
  | cons s rest ih =>
    rw [List.filterMap_cons]
    cases hs : f s with
    | none =>
      have := h s (List.mem_cons_self s rest)
      rw [hs] at this
      cases this
    | some s' =>
      simpa using ih (fun t ht => h t (List.mem_cons_of_mem s ht))

theorem normalizeCoordinates_nonempty (plan : CorePlan) (vp : Option Viewport)
    (hne : plan.steps ≠ []) :
    normalizeCoordinates plan vp =
      (⟨(normSteps vp 0 plan.steps).1⟩, (normSteps vp 0 plan.steps).2) := by
  obtain ⟨steps⟩ := plan
  cases steps with
  | nil => exact absurd rfl hne
  | cons s rest => rfl

/-- Claim C5: a plan whose single unresolvable coordinate step sits between
    resolvable steps is normalized by dropping exactly that step: the remaining
    steps appear, in order, with their points adjusted; the result has exactly
    one step fewer; and exactly one skip notice is handed to the logger. -/
theorem normalizeCoordinates_drops_unresolvable_step (vp : Option Viewport)
    (pre post : List CoreStep) (bad : CoreStep)
    (hbad : adjustStep vp bad = none)
    (hpre : ∀ s ∈ pre, (adjustStep vp s).isSome)
    (hpost : ∀ s ∈ post, (adjustStep vp s).isSome) :
    (normalizeCoordinates ⟨pre ++ bad :: post⟩ vp).1.steps
        = pre.filterMap (adjustStep vp) ++ post.filterMap (adjustStep vp)
    ∧ (normalizeCoordinates ⟨pre ++ bad :: post⟩ vp).1.steps.length
        = (pre ++ bad :: post).length - 1
    ∧ (normalizeCoordinates ⟨pre ++ bad :: post⟩ vp).2.length = 1 := by
  have hne : (pre ++ bad :: post) ≠ [] := by
    intro hcontra
    exact absurd (List.append_eq_nil.mp hcontra).2 (by simp)
  rw [normalizeCoordinates_nonempty ⟨pre ++ bad :: post⟩ vp hne]
  refine ⟨?_, ?_, ?_⟩
  · rw [normSteps_fst vp _ 0, List.filterMap_append, List.filterMap_cons, hbad]
  · rw [normSteps_fst vp _ 0, List.filterMap_append, List.filterMap_cons, hbad]
    simp only [List.length_append, List.length_cons,
      filterMap_length_of_isSome _ pre hpre, filterMap_length_of_isSome _ post hpost]
    omega
  · exact normSteps_snd_one vp pre post bad hbad hpre hpost 0

/-- Witness for C5: the claim's click_point step with point (NaN, 5) between a
    click step and a scroll step. -/
theorem normalizeCoordinates_drops_unresolvable_step_witness :
    ((normalizeCoordinates
        ⟨[⟨"click", noArgs⟩,
          ⟨"click_point", ⟨none, none, some ⟨none, some 5⟩, none, none⟩⟩,
          ⟨"scroll", noArgs⟩]⟩ none).1.steps
      = [⟨"click", noArgs⟩].filterMap (adjustStep none)
          ++ [⟨"scroll", noArgs⟩].filterMap (adjustStep none))
    ∧ ((normalizeCoordinates
        ⟨[⟨"click", noArgs⟩,
          ⟨"click_point", ⟨none, none, some ⟨none, some 5⟩, none, none⟩⟩,
          ⟨"scroll", noArgs⟩]⟩ none).1.steps.length = 3 - 1)
    ∧ ((normalizeCoordinates
        ⟨[⟨"click", noArgs⟩,
          ⟨"click_point", ⟨none, none, some ⟨none, some 5⟩, none, none⟩⟩,
          ⟨"scroll", noArgs⟩]⟩ none).2.length = 1) :=
  normalizeCoordinates_drops_unresolvable_step none
    [⟨"click", noArgs⟩] [⟨"scroll", noArgs⟩]
    ⟨"click_point", ⟨none, none, some ⟨none, some 5⟩, none, none⟩⟩
    (by decide) (by decide) (by decide)

theorem stepChecks_ok (allowed : List String) (profile : GuardrailProfile)
    (l : List CoreStep)
    (h1 : ∀ s ∈ l, allowed.contains s.tool = true)
    (h2 : ∀ s ∈ l, profile.blocked_tools.contains s.tool = false)
    (h3 : ∀ s ∈ l, ¬(profile.allow_password = some false ∧ s.tool = "type"
            ∧ passwordLike s.args.id = true)) :
    ∀ idx, stepChecks allowed profile idx l = .ok := by
  induction l with
  | nil => intro idx; rfl
  | cons s rest ih =>
    intro idx
    unfold stepChecks
    rw [h1 s (List.mem_cons_self s rest), h2 s (List.mem_cons_self s rest)]
    have hpw : (decide (profile.allow_password = some false)
        && decide (s.tool = "type") && passwordLike s.args.id) = false := by
      by_contra hb
      rw [Bool.not_eq_false, Bool.and_eq_true, Bool.and_eq_true,
        decide_eq_true_iff, decide_eq_true_iff] at hb
      exact h3 s (List.mem_cons_self s rest) ⟨hb.1.1, hb.1.2, hb.2⟩
    simp only [hpw, Bool.not_true, Bool.false_eq_true, if_false]
    exact ih (fun t ht => h1 t (List.mem_cons_of_mem s ht))
      (fun t ht => h2 t (List.mem_cons_of_mem s ht))
      (fun t ht => h3 t (List.mem_cons_of_mem s ht)) (idx + 1)

/-- Claim C1, amended: the guardrail validation returns Ok for every plan whose
    steps all use tools that are in the catalog (the condition the claim
    leaves out) and outside the blocked set, whose step count stays within the
    ceiling, and with no password-like type target when passwords are
    disallowed. -/
theorem validatePlanAgainst_ok_of_known_unblocked_tools (plan : CorePlan)
    (profile : GuardrailProfile) (toolCatalog : List ToolCatalogEntry)
    (hcat : ∀ s ∈ plan.steps,
      (toolCatalog.map ToolCatalogEntry.name).contains s.tool = true)
    (hblocked : ∀ s ∈ plan.steps, profile.blocked_tools.contains s.tool = false)
    (hcount : plan.steps.length ≤ profile.max_steps)
    (hpwd : ∀ s ∈ plan.steps, ¬(profile.allow_password = some false
        ∧ s.tool = "type" ∧ passwordLike s.args.id = true)) :
    validatePlanAgainst plan profile toolCatalog = .ok := by
  unfold validatePlanAgainst
  rw [if_neg (fun hc => absurd hcount (not_le.mpr hc.2))]
  exact stepChecks_ok _ profile plan.steps hcat hblocked hpwd 0

/-- Claim C1, counterexample: a one-step plan using the unknown tool
    "teleport" meets every hypothesis of the claim against the default profile
    and the base catalog — the tool is not blocked, one step is within the
    ceiling, and there is no type step — yet validation returns unknown_tool,
    not Ok. -/
theorem validatePlanAgainst_unknown_tool_counterexample :
    validatePlanAgainst ⟨[⟨"teleport", noArgs⟩]⟩ defaultProfile BASE_TOOL_CATALOG
        = .unknownTool 0 "teleport"
    ∧ PolicyVerdict.unknownTool 0 "teleport" ≠ .ok
    ∧ defaultProfile.blocked_tools.contains "teleport" = false
    ∧ 1 ≤ defaultProfile.max_steps
    ∧ ("teleport" : String) ≠ "type" := by
  decide

/-- Witness for the amended C1 at a concrete benign plan. -/
theorem validatePlanAgainst_ok_of_known_unblocked_tools_witness :
    validatePlanAgainst ⟨[⟨"click", ⟨some "btn", none, none, none, none⟩⟩]⟩
        defaultProfile BASE_TOOL_CATALOG = .ok :=
  validatePlanAgainst_ok_of_known_unblocked_tools _ defaultProfile BASE_TOOL_CATALOG
    (by decide) (by decide) (by decide) (by decide)

theorem stepChecks_first_unknown (allowed : List String) (profile : GuardrailProfile)
    (l : List CoreStep) (i : ℕ) (s : CoreStep)
    (hstep : l[i]? = some s)
    (htool : allowed.contains s.tool = false)
    (hpre : ∀ j < i, ∀ t, l[j]? = some t →
        allowed.contains t.tool = true
        ∧ profile.blocked_tools.contains t.tool = false
        ∧ ¬(profile.allow_password = some false ∧ t.tool = "type"
              ∧ passwordLike t.args.id = true)) :
    ∀ idx, stepChecks allowed profile idx l = .unknownTool (idx + i) s.tool := by
  induction l generalizing i with
  | nil => cases hstep
  | cons hd tl ih =>
    intro idx
    cases i with
    | zero =>
      rw [List.getElem?_cons_zero] at hstep
      cases hstep
      unfold stepChecks
      rw [htool]
      rfl
    | succ j =>
      rw [List.getElem?_cons_succ] at hstep
      obtain ⟨ha, hb, hc⟩ := hpre 0 (Nat.succ_pos j) hd List.getElem?_cons_zero
      have hpw : (decide (profile.allow_password = some false)
          && decide (hd.tool = "type") && passwordLike hd.args.id) = false := by
        by_contra hbo
        rw [Bool.not_eq_false, Bool.and_eq_true, Bool.and_eq_true,
          decide_eq_true_iff, decide_eq_true_iff] at hbo
        exact hc ⟨hbo.1.1, hbo.1.2, hbo.2⟩
      unfold stepChecks
      rw [ha, hb]
      simp only [hpw, Bool.not_true, Bool.false_eq_true, if_false]
      have := ih j hstep
        (fun j' hj' t ht => hpre (j' + 1) (Nat.succ_lt_succ hj') t
          (by rw [List.getElem?_cons_succ]; exact ht)) (idx + 1)
      rw [this]
      congr 1
      omega

/-- Claim C2, amended: under the conservative (default) profile a plan whose
    first offending step uses the tool "shell" is rejected by the guardrail
    with unknown_tool at that step's index — shell is not part of the base
    catalog selected for this profile, so the catalog check fires before the
    blocked-tool check could; the run still terminates with policy_block and
    no driver primitive is called for any step. -/
theorem conservative_shell_policy_block (cfg : RunConfig) (p : CorePlan)
    (i : ℕ) (s : CoreStep)
    (hprofile : cfg.profileName = "default")
    (hprov : cfg.confirmPlanProvided = true)
    (hacq : cfg.acquisition = some p)
    (hstep : ((normalizeCoordinates p cfg.viewport).1.steps)[i]? = some s)
    (htool : s.tool = "shell")
    (hcount : (normalizeCoordinates p cfg.viewport).1.steps.length ≤ 12)
    (hpre : ∀ j < i, ∀ t, ((normalizeCoordinates p cfg.viewport).1.steps)[j]? = some t →
        (BASE_TOOL_CATALOG.map ToolCatalogEntry.name).contains t.tool = true
        ∧ defaultProfile.blocked_tools.contains t.tool = false
        ∧ ¬(defaultProfile.allow_password = some false ∧ t.tool = "type"
              ∧ passwordLike t.args.id = true)) :
    validatePlanAgainst (normalizeCoordinates p cfg.viewport).1 defaultProfile
        (buildToolCatalog "default") = .unknownTool i "shell"
    ∧ runPocSession cfg = (⟨"policy_block", none, none⟩, 0) := by
  have hcatnames : (buildToolCatalog "default").map ToolCatalogEntry.name
      = BASE_TOOL_CATALOG.map ToolCatalogEntry.name := rfl
  have hval : validatePlanAgainst (normalizeCoordinates p cfg.viewport).1 defaultProfile
      (buildToolCatalog "default") = .unknownTool i "shell" := by
    unfold validatePlanAgainst
    rw [if_neg (fun hc => absurd hcount (not_le.mpr hc.2))]
    rw [hcatnames]
    have := stepChecks_first_unknown (BASE_TOOL_CATALOG.map ToolCatalogEntry.name)
      defaultProfile (normalizeCoordinates p cfg.viewport).1.steps i s hstep
      (by rw [htool]; decide) hpre 0
    rw [this, htool, Nat.zero_add]
  refine ⟨hval, ?_⟩
  unfold runPocSession
  rw [hprov, hacq]
  dsimp only
  rw [hprofile]
  have hsel : selectGuardrailProfile DEFAULT_GUARDRAILS_profiles (some "default")
      = ("default", defaultProfile) := rfl
  rw [hsel]
  dsimp only
  rw [hval]
  rfl

/-- Claim C2, counterexample: under the default (conservative) profile a plan
    with one shell step is rejected as unknown_tool — not tool_blocked as the
    claim states — while the run outcome is policy_block with no executeStep
    call. -/
theorem conservative_shell_unknown_tool_counterexample :
    validatePlanAgainst ⟨[⟨"shell", noArgs⟩]⟩ defaultProfile (buildToolCatalog "default")
        = .unknownTool 0 "shell"
    ∧ (validatePlanAgainst ⟨[⟨"shell", noArgs⟩]⟩ defaultProfile
        (buildToolCatalog "default")).errName = some "unknown_tool"
    ∧ (some "unknown_tool" : Option String) ≠ some "tool_blocked"
    ∧ runPocSession ⟨"default", true, fun _ => true, none,
        some ⟨[⟨"shell", noArgs⟩]⟩, fun _ => false, fun _ => .ok⟩
      = (⟨"policy_block", none, none⟩, 0) := by
  refine ⟨by decide, by decide, by decide, by decide⟩

/-- Witness for the amended C2 at the one-step shell plan. -/
theorem conservative_shell_policy_block_witness :
    validatePlanAgainst
        (normalizeCoordinates ⟨[⟨"shell", noArgs⟩]⟩ none).1 defaultProfile
        (buildToolCatalog "default") = .unknownTool 0 "shell"
    ∧ runPocSession ⟨"default", true, fun _ => true, none,
        some ⟨[⟨"shell", noArgs⟩]⟩, fun _ => false, fun _ => .ok⟩
      = (⟨"policy_block", none, none⟩, 0) :=
  conservative_shell_policy_block
    ⟨"default", true, fun _ => true, none, some ⟨[⟨"shell", noArgs⟩]⟩,
      fun _ => false, fun _ => .ok⟩
    ⟨[⟨"shell", noArgs⟩]⟩ 0 ⟨"shell", noArgs⟩ rfl rfl rfl (by decide) rfl (by decide)
    (fun j hj t _ => absurd hj (Nat.not_lt_zero j))

theorem execLoop_progress (kb : ℕ → Bool) (sr : ℕ → StepOutcome) (k : ℕ) :
    ∀ (l : List CoreStep) (i0 : ℕ), k < l.length →
    (∀ j < k, kb (i0 + j) = false ∧ sr (i0 + j) = .ok) →
    (kb (i0 + k) = true → execLoop kb sr i0 l = (⟨"killed", none, none⟩, k))
    ∧ (∀ e, kb (i0 + k) = false → sr (i0 + k) = .raise e → e ≠ "killed" →
        execLoop kb sr i0 l = (⟨"failed", some e, none⟩, k + 1))
    ∧ (kb (i0 + k) = false → sr (i0 + k) = .raise "killed" →
        execLoop kb sr i0 l = (⟨"killed", none, none⟩, k + 1)) := by
  induction k with
  | zero =>
    intro l i0 hlen _hpre
    cases l with
    | nil => simp at hlen
    | cons s rest =>
      rw [Nat.add_zero]
      refine ⟨?_, ?_, ?_⟩
      · intro hk
        unfold execLoop
        rw [hk]
        rfl
      · intro e hk hsr hne
        unfold execLoop
        rw [hk, hsr]
        simp only [Bool.false_eq_true, if_false]
        rw [if_neg hne]
      · intro hk hsr
        unfold execLoop
        rw [hk, hsr]
        simp
  | succ k ih =>
    intro l i0 hlen hpre
    cases l with
    | nil => simp at hlen
    | cons s rest =>
      have hkb : kb i0 = false := by simpa using (hpre 0 (Nat.succ_pos k)).1
      have hsr0 : sr i0 = .ok := by simpa using (hpre 0 (Nat.succ_pos k)).2
      have hlen' : k < rest.length := by
        simpa [Nat.succ_lt_succ_iff] using hlen
      have hpre' : ∀ j < k, kb (i0 + 1 + j) = false ∧ sr (i0 + 1 + j) = .ok := by
        intro j hj
        have h := hpre (j + 1) (Nat.succ_lt_succ hj)
        have e : i0 + (j + 1) = i0 + 1 + j := by omega
        rw [e] at h
        exact h
      obtain ⟨c1, c2, c3⟩ := ih rest (i0 + 1) hlen' hpre'
      have eidx : i0 + (k + 1) = i0 + 1 + k := by omega
      rw [eidx]
      refine ⟨?_, ?_, ?_⟩
      · intro hk
        unfold execLoop
        rw [hkb, hsr0]
        simp only [Bool.false_eq_true, if_false]
        rw [c1 hk]
      · intro e hk hsr hne
        unfold execLoop
        rw [hkb, hsr0]
        simp only [Bool.false_eq_true, if_false]
        rw [c2 e hk hsr hne]
      · intro hk hsr
        unfold execLoop
        rw [hkb, hsr0]
        simp only [Bool.false_eq_true, if_false]
        rw [c3 hk hsr]

/-- Claim C8: once a run is executing (plan acquired, guardrails passed, plan
    confirmed) and the first i steps succeeded with the kill flag clear, then:
    if the kill flag is observed before step i the run terminates as killed
    after exactly i dispatches; if step i is dispatched and throws an ordinary
    error the run terminates as failed(error) after exactly i+1 dispatches —
    so step i is not retried and no step after i is ever dispatched; and a
    kill raised inside the dispatch of step i also ends the run as killed,
    never as failed. -/
theorem runPocSession_abort_on_failure_and_kill (cfg : RunConfig) (p : CorePlan)
    (i : ℕ)
    (hprov : cfg.confirmPlanProvided = true)
    (hacq : cfg.acquisition = some p)
    (hok : validatePlanAgainst (normalizeCoordinates p cfg.viewport).1
        (selectGuardrailProfile DEFAULT_GUARDRAILS_profiles (some cfg.profileName)).2
        (buildToolCatalog cfg.profileName) = .ok)
    (happr : cfg.confirmApproves (normalizeCoordinates p cfg.viewport).1 = true)
    (hlen : i < (normalizeCoordinates p cfg.viewport).1.steps.length)
    (hpre : ∀ j < i, cfg.killBefore j = false ∧ cfg.stepResult j = .ok) :
    (cfg.killBefore i = true → runPocSession cfg = (⟨"killed", none, none⟩, i))
    ∧ (∀ e, cfg.killBefore i = false → cfg.stepResult i = .raise e → e ≠ "killed" →
        runPocSession cfg = (⟨"failed", some e, none⟩, i + 1))
    ∧ (cfg.killBefore i = false → cfg.stepResult i = .raise "killed" →
        runPocSession cfg = (⟨"killed", none, none⟩, i + 1)) := by
  have hrun : runPocSession cfg =
      execLoop cfg.killBefore cfg.stepResult 0 (normalizeCoordinates p cfg.viewport).1.steps := by
    unfold runPocSession
    rw [hprov, hacq]
    dsimp only
    rw [hok]
    dsimp only
    rw [happr]
    rfl
  obtain ⟨c1, c2, c3⟩ := execLoop_progress cfg.killBefore cfg.stepResult i
    (normalizeCoordinates p cfg.viewport).1.steps 0 hlen
    (fun j hj => by simpa using hpre j hj)
  refine ⟨?_, ?_, ?_⟩
  · intro hk
    rw [hrun]
    exact c1 (by simpa using hk)
  · intro e hk hsr hne
    rw [hrun]
    exact c2 e (by simpa using hk) (by simpa using hsr) hne
  · intro hk hsr
    rw [hrun]
    exact c3 (by simpa using hk) (by simpa using hsr)

/-- Witness for C8: a two-step plan whose second step throws "boom". -/
theorem runPocSession_abort_on_failure_and_kill_witness :
    runPocSession ⟨"default", true, fun _ => true, none,
        some ⟨[⟨"click", noArgs⟩, ⟨"scroll", noArgs⟩]⟩,
        fun _ => false, fun n => if n = 1 then .raise "boom" else .ok⟩
      = (⟨"failed", some "boom", none⟩, 2) :=
  (runPocSession_abort_on_failure_and_kill
    ⟨"default", true, fun _ => true, none,
      some ⟨[⟨"click", noArgs⟩, ⟨"scroll", noArgs⟩]⟩,
      fun _ => false, fun n => if n = 1 then .raise "boom" else .ok⟩
    ⟨[⟨"click", noArgs⟩, ⟨"scroll", noArgs⟩]⟩ 1
    rfl rfl (by decide) rfl (by decide)
    (fun j hj => by
      have hj0 : j = 0 := by omega
      subst hj0
      exact ⟨rfl, rfl⟩)).2.1 "boom" rfl rfl (by decide)

theorem execLoop_status (kb : ℕ → Bool) (sr : ℕ → StepOutcome) :
    ∀ (l : List CoreStep) (i : ℕ),
      (execLoop kb sr i l).1.status ∈ ["ok", "killed", "failed"] := by
  intro l
  induction l with
  | nil => intro i; simp [execLoop]
  | cons s rest ih =>
    intro i
    unfold execLoop
    cases hkb : kb i with
    | true => simp
    | false =>
      dsimp only
      cases hsr : sr i with
      | ok => simpa using ih (i + 1)
      | raise e =>
        dsimp only
        by_cases he : e = "killed"
        · rw [if_pos he]; simp
        · rw [if_neg he]; simp

/-- Claim C9, amended: every run of the session produces exactly one terminal
    status, drawn from the seven-element set that extends the documented
    taxonomy of six by "policy_error"; invoking the session without the
    mandatory confirmPlan hook yields exactly that seventh status, with detail
    confirm_required_not_provided — a fatal configuration report rather than a
    silent skip, but one that is not inside the documented six-outcome set. -/
theorem runPocSession_outcome_taxonomy (cfg : RunConfig) :
    ((runPocSession cfg).1.status ∈ ["ok", "rejected_by_user", "policy_block",
        "planner_error", "killed", "failed", "policy_error"])
    ∧ (cfg.confirmPlanProvided = false →
        (runPocSession cfg).1
          = ⟨"policy_error", none, some "confirm_required_not_provided"⟩) := by
  constructor
  · unfold runPocSession
    cases hprov : cfg.confirmPlanProvided with
    | false => simp
    | true =>
      dsimp only [Bool.not_true]
      rw [if_neg (by simp)]
      cases hacq : cfg.acquisition with
      | none => simp
      | some p =>
        dsimp only
        split
        · split
          · have := execLoop_status cfg.killBefore cfg.stepResult
              (normalizeCoordinates p cfg.viewport).1.steps 0
            simp only [List.mem_cons, List.not_mem_nil, or_false] at this ⊢
            tauto
          · simp
        · simp
  · intro hnot
    unfold runPocSession
    rw [hnot]
    rfl

/-- Claim C9, counterexample: a session invoked without the confirmPlan hook
    reports the status policy_error, which is not one of the six documented
    RunOutcome values. -/
theorem runPocSession_policy_error_counterexample :
    (runPocSession ⟨"default", false, fun _ => true, none, none,
        fun _ => false, fun _ => .ok⟩).1.status = "policy_error"
    ∧ "policy_error" ∉ ["ok", "rejected_by_user", "policy_block",
        "planner_error", "killed", "failed"] := by
  refine ⟨rfl, by decide⟩

/-- Witness for the amended C9 at a hookless configuration. -/
theorem runPocSession_outcome_taxonomy_witness :
    ((runPocSession ⟨"default", false, fun _ => true, none, none,
        fun _ => false, fun _ => .ok⟩).1.status ∈ ["ok", "rejected_by_user",
        "policy_block", "planner_error", "killed", "failed", "policy_error"])
    ∧ (runPocSession ⟨"default", false, fun _ => true, none, none,
        fun _ => false, fun _ => .ok⟩).1
      = ⟨"policy_error", none, some "confirm_required_not_provided"⟩ :=
  ⟨(runPocSession_outcome_taxonomy _).1,
   (runPocSession_outcome_taxonomy
      ⟨"default", false, fun _ => true, none, none, fun _ => false, fun _ => .ok⟩).2 rfl⟩

theorem planLoop_calls_le (responses : ℕ → ChatResult) (fa : String) :
    ∀ fuel attempt, (planLoop responses fa attempt fuel).2 ≤ fuel := by
  intro fuel
  induction fuel with
  | zero => intro attempt; simp [planLoop]
  | succ n ih =>
    intro attempt
    unfold planLoop
    cases responses attempt with
    | failure msg => simp
    | success content =>
      dsimp only
      cases parsePlanContent content with
      | plan v =>
        dsimp only
        cases validatePlanSchema v fa with
        | valid p => simp
        | typeError => simp
        | invalid p =>
          dsimp only
          have := ih (attempt + 1)
          omega
      | parseErr name =>
        dsimp only
        have := ih (attempt + 1)
        omega

theorem planGoal_double_retry (goal : String) (responses : ℕ → ChatResult)
    (fa : String) (hg : jsTrim goal ≠ "")
    (h0 : attemptRetries responses fa 0 = true)
    (h1 : attemptRetries responses fa 1 = true) :
    planGoal goal responses fa = (.err "schema_validation_failed", 2) := by
  unfold attemptRetries at h0 h1
  unfold planGoal
  rw [if_neg hg]
  unfold planLoop
  cases hr0 : responses 0 with
  | failure msg => rw [hr0] at h0; cases h0
  | success c0 =>
    rw [hr0] at h0
    dsimp only at h0 ⊢
    cases hp0 : parsePlanContent c0 with
    | plan v0 =>
      rw [hp0] at h0
      dsimp only at h0 ⊢
      cases hv0 : validatePlanSchema v0 fa with
      | typeError => rw [hv0] at h0; simp [PlanCheck.isInvalid] at h0
      | valid q => rw [hv0] at h0; simp [PlanCheck.isInvalid] at h0
      | invalid q =>
        dsimp only
        unfold planLoop
        cases hr1 : responses 1 with
        | failure msg => rw [hr1] at h1; cases h1
        | success c1 =>
          rw [hr1] at h1
          dsimp only at h1 ⊢
          cases hp1 : parsePlanContent c1 with
          | plan v1 =>
            rw [hp1] at h1
            dsimp only at h1 ⊢
            cases hv1 : validatePlanSchema v1 fa with
            | typeError => rw [hv1] at h1; simp [PlanCheck.isInvalid] at h1
            | valid p => rw [hv1] at h1; simp [PlanCheck.isInvalid] at h1
            | invalid p => rfl
          | parseErr nm => rfl
    | parseErr nm =>
      rw [hp0] at h0
      dsimp only
      unfold planLoop
      cases hr1 : responses 1 with
      | failure msg => rw [hr1] at h1; cases h1
      | success c1 =>
        rw [hr1] at h1
        dsimp only at h1 ⊢
        cases hp1 : parsePlanContent c1 with
        | plan v1 =>
          rw [hp1] at h1
          dsimp only at h1 ⊢
          cases hv1 : validatePlanSchema v1 fa with
          | typeError => rw [hv1] at h1; simp [PlanCheck.isInvalid] at h1
          | valid p => rw [hv1] at h1; simp [PlanCheck.isInvalid] at h1
          | invalid p => rfl
        | parseErr nm2 => rfl

/-- Claim C6: the Plan Generator makes at most two generation attempts; when
    the first response parses but fails schema validation and the second
    passes, planGoal returns the plan built from the second response (with its
    raw text), not a failure; when both attempts fall through — each response
    either unparseable or schema-invalid — it returns exactly the error
    schema_validation_failed after exactly two chat calls. -/
theorem planGoal_retry_and_bound (goal : String) (responses : ℕ → ChatResult)
    (fa : String) :
    (∀ v0 r0 v1 r1 p1,
      jsTrim goal ≠ "" →
      responses 0 = .success (.wellFormed v0 r0) →
      (validatePlanSchema v0 fa).isInvalid = true →
      responses 1 = .success (.wellFormed v1 r1) →
      validatePlanSchema v1 fa = .valid p1 →
      planGoal goal responses fa = (.ok p1 r1, 2))
    ∧ (jsTrim goal ≠ "" →
       attemptRetries responses fa 0 = true →
       attemptRetries responses fa 1 = true →
       planGoal goal responses fa = (.err "schema_validation_failed", 2))
    ∧ (planGoal goal responses fa).2 ≤ 2 := by
  refine ⟨?_, ?_, ?_⟩
  · intro v0 r0 v1 r1 p1 hg h0 hinv h1 hval
    unfold planGoal
    rw [if_neg hg]
    unfold planLoop
    rw [h0]
    dsimp only [parsePlanContent]
    cases hv0 : validatePlanSchema v0 fa with
    | typeError => rw [hv0] at hinv; simp [PlanCheck.isInvalid] at hinv
    | valid q => rw [hv0] at hinv; simp [PlanCheck.isInvalid] at hinv
    | invalid q =>
      dsimp only
      unfold planLoop
      rw [h1]
      dsimp only [parsePlanContent]
      rw [hval]
      rfl
  · exact planGoal_double_retry goal responses fa
  · unfold planGoal
    split
    · simp
    · exact planLoop_calls_le responses fa 2 0

/-- Witness for C6: an empty object fails validation on the first attempt, a
    schema-conformant plan passes on the second. -/
theorem planGoal_retry_and_bound_witness :
    planGoal "goal"
        (fun n => if n = 0 then .success (.wellFormed (.obj []) "bad")
                  else .success (.wellFormed validPlanFixture "good")) "assisted"
      = (.ok validPlanFixture "good", 2) :=
  (planGoal_retry_and_bound "goal"
      (fun n => if n = 0 then .success (.wellFormed (.obj []) "bad")
                else .success (.wellFormed validPlanFixture "good")) "assisted").1
    (.obj []) "bad" validPlanFixture "good" validPlanFixture
    (by decide) rfl rfl rfl rfl

/-- Claim C7, amended: a model response that cannot be parsed as one structured
    object makes parsePlanContent report invalid_json, but planGoal does not
    surface that error: it retries, and when the second response is also
    unparseable the run's resulting PlanError is schema_validation_failed. -/
theorem parsePlanContent_invalid_json_planGoal_retries :
    (∀ raw, parsePlanContent (.malformed raw) = .parseErr "invalid_json")
    ∧ (∀ (goal : String) (responses : ℕ → ChatResult) (fa : String),
        jsTrim goal ≠ "" →
        (responses 0).isMalformed = true →
        (responses 1).isMalformed = true →
        planGoal goal responses fa = (.err "schema_validation_failed", 2)) := by
  constructor
  · intro raw
    rfl
  · intro goal responses fa hg h0 h1
    have hr0 : attemptRetries responses fa 0 = true := by
      unfold attemptRetries
      cases hc : responses 0 with
      | failure msg => rw [hc] at h0; cases h0
      | success c =>
        rw [hc] at h0
        cases c with
        | missing => cases h0
        | malformed raw => rfl
        | wellFormed v raw => cases h0
    have hr1 : attemptRetries responses fa 1 = true := by
      unfold attemptRetries
      cases hc : responses 1 with
      | failure msg => rw [hc] at h1; cases h1
      | success c =>
        rw [hc] at h1
        cases c with
        | missing => cases h1
        | malformed raw => rfl
        | wellFormed v raw => cases h1
    exact planGoal_double_retry goal responses fa hg hr0 hr1

/-- Claim C7, counterexample: with both responses unparseable, planGoal's
    resulting error is schema_validation_failed, not invalid_json, even though
    parsePlanContent produced invalid_json internally on each attempt. -/
theorem planGoal_invalid_json_counterexample :
    planGoal "goal" (fun _ => .success (.malformed "not json")) "assisted"
        = (.err "schema_validation_failed", 2)
    ∧ parsePlanContent (.malformed "not json") = .parseErr "invalid_json"
    ∧ "schema_validation_failed" ≠ "invalid_json" :=
  ⟨rfl, rfl, by decide⟩

/-- Witness for the amended C7 at a concrete unparseable response. -/
theorem parsePlanContent_invalid_json_planGoal_retries_witness :
    parsePlanContent (.malformed "not json") = .parseErr "invalid_json"
    ∧ planGoal "goal" (fun _ => .success (.malformed "not json")) "assisted"
        = (.err "schema_validation_failed", 2) :=
  ⟨parsePlanContent_invalid_json_planGoal_retries.1 "not json",
   parsePlanContent_invalid_json_planGoal_retries.2 "goal"
     (fun _ => .success (.malformed "not json")) "assisted" (by decide) rfl rfl⟩

theorem lowerChar_idem (c : Char) : lowerChar (lowerChar c) = lowerChar c := by
  unfold lowerChar
  cases hf : UPPER_LOWER.find? (fun p => p.1 = c) with
  | none =>
    simp only [Option.map_none', Option.getD_none]
    rw [hf]
    simp only [Option.map_none', Option.getD_none]
  | some pr =>
    have hmem : pr ∈ UPPER_LOWER := List.mem_of_find?_eq_some hf
    have hall : ∀ p ∈ UPPER_LOWER,
        UPPER_LOWER.find? (fun q => q.1 = p.2) = none := by decide
    simp only [Option.map_some', Option.getD_some]
    rw [hall pr hmem]
    rfl

theorem jsToLower_idem (s : String) : jsToLower (jsToLower s) = jsToLower s := by
  unfold jsToLower
  simp only [List.map_map]
  have hcomp : lowerChar ∘ lowerChar = lowerChar := funext lowerChar_idem
  rw [hcomp]

theorem jsToLower_ne_empty (s : String) (h : s ≠ "") : jsToLower s ≠ "" := by
  intro hc
  apply h
  have hd : List.map lowerChar s.data = [] := congrArg String.data hc
  rw [List.map_eq_nil_iff] at hd
  cases s with
  | mk d =>
    have hd2 : d = [] := hd
    subst hd2
    rfl

theorem dropWhile_idem (p : Char → Bool) (l : List Char) :
    (l.dropWhile p).dropWhile p = l.dropWhile p := by
  induction l with
  | nil => rfl
  | cons c cs ih =>
    by_cases h : p c = true
    · rw [List.dropWhile_cons_of_pos h, ih]
    · rw [List.dropWhile_cons_of_neg h, List.dropWhile_cons_of_neg h]

theorem dropWhile_head_false (p : Char → Bool) (l : List Char) (c : Char)
    (cs : List Char) (h : l.dropWhile p = c :: cs) : p c = false := by
  induction l with
  | nil => cases h
  | cons d ds ih =>
    by_cases hd : p d = true
    · rw [List.dropWhile_cons_of_pos hd] at h; exact ih h
    · rw [List.dropWhile_cons_of_neg hd] at h
      cases h
      simpa using hd

theorem dropWhile_suffix_ex (p : Char → Bool) (l : List Char) :
    ∃ t, l = t ++ l.dropWhile p := by
  induction l with
  | nil => exact ⟨[], rfl⟩
  | cons c cs ih =>
    by_cases h : p c = true
    · obtain ⟨t, ht⟩ := ih
      exact ⟨c :: t, by rw [List.dropWhile_cons_of_pos h, List.cons_append, ← ht]⟩
    · exact ⟨[], by rw [List.dropWhile_cons_of_neg h, List.nil_append]⟩

theorem dropWhile_of_head_false (p : Char → Bool) (c : Char) (cs : List Char)
    (h : p c = false) : (c :: cs).dropWhile p = c :: cs :=
  List.dropWhile_cons_of_neg (by simp [h])

theorem trimList_idem (l : List Char) : trimList (trimList l) = trimList l := by
  unfold trimList
  set u := l.dropWhile isWS with hu
  set X := u.reverse.dropWhile isWS with hX
  have hfront : X.reverse.dropWhile isWS = X.reverse := by
    cases hXr : X.reverse with
    | nil => rfl
    | cons c cs =>
      apply dropWhile_of_head_false
      obtain ⟨t, ht⟩ := dropWhile_suffix_ex isWS u.reverse
      have hurev : u = (X.reverse) ++ t.reverse := by
        have := congrArg List.reverse ht
        simpa [hX] using this
      have hc : u = c :: (cs ++ t.reverse) := by
        rw [hurev, hXr]; simp
      cases hu' : u with
      | nil => rw [hu'] at hc; cases hc
      | cons d ds =>
        rw [hu'] at hc
        injection hc with h1 _
        subst h1
        exact dropWhile_head_false isWS l d ds (hu ▸ hu')
  rw [hfront]
  rw [List.reverse_reverse]
  rw [dropWhile_idem]

theorem jsTrim_idem (s : String) : jsTrim (jsTrim s) = jsTrim s := by
  unfold jsTrim
  simp only [trimList_idem]

theorem jsOr_of_truthy (a b : JVal) (h : truthy a = true) : jsOr a b = a := by
  unfold jsOr
  rw [h]
  exact if_pos rfl

theorem jsOr_of_falsy (a b : JVal) (h : truthy a = false) : jsOr a b = b := by
  unfold jsOr
  rw [h]
  exact if_neg (by simp)

theorem truthy_jsOr_right (a b : JVal) (hb : truthy b = true) :
    truthy (jsOr a b) = true := by
  cases ha : truthy a with
  | true => rw [jsOr_of_truthy a b ha]; exact ha
  | false => rw [jsOr_of_falsy a b ha]; exact hb

theorem truthy_str_of_ne (r : String) (h : r ≠ "") : truthy (.str r) = true := by
  simp [truthy, h]

theorem normalizeArgs_isObj (t : String) (a : JVal) :
    ∃ fs, normalizeArgs t a = .obj fs := by
  unfold normalizeArgs
  cases a <;> dsimp only
  case obj fs => exact ⟨fs, rfl⟩
  all_goals
    split <;>
      first
        | exact ⟨_, rfl⟩
        | (split <;> exact ⟨_, rfl⟩)

theorem clampConfidence_mem (v : JVal) :
    0 ≤ clampConfidence v ∧ clampConfidence v ≤ 1 := by
  unfold clampConfidence
  cases jsToNumber v with
  | fin q =>
    dsimp only
    rw [jmin_eq_min, jmax_eq_max]
    constructor
    · exact le_min (by norm_num) (le_max_left 0 q)
    · exact min_le_left 1 _
  | nan => exact ⟨by decide, by decide⟩
  | inf => exact ⟨by decide, by decide⟩
  | ninf => exact ⟨by decide, by decide⟩

theorem clampConfidence_fix (c : ℚ) (h0 : 0 ≤ c) (h1 : c ≤ 1) :
    clampConfidence (.num (.fin c)) = c := by
  unfold clampConfidence jsToNumber
  dsimp only
  rw [jmin_eq_min, jmax_eq_max, max_eq_right h0, min_eq_right h1]

theorem pickNonEmptyStr_ne (v : JVal) (rest : String) (h : rest ≠ "") :
    pickNonEmptyStr v rest ≠ "" := by
  unfold pickNonEmptyStr
  cases v <;> dsimp only <;> try exact h
  case str s =>
    by_cases hs : s = ""
    · rw [if_neg (by simpa using hs)]; exact h
    · rw [if_pos hs]; exact hs

theorem resolveAutonomy_ne_empty (v : JVal) (fa : String) :
    resolveAutonomy v fa ≠ "" := by
  unfold resolveAutonomy
  apply pickNonEmptyStr_ne
  apply pickNonEmptyStr_ne
  apply pickNonEmptyStr_ne
  by_cases hfa : fa = ""
  · rw [if_neg (by simpa using hfa)]; decide
  · rw [if_pos hfa]; exact hfa

theorem toStringSafe_jsOr_fix (r : String) :
    toStringSafe (jsOr (jsOr (.str r) .undef) (.str "")) = r := by
  by_cases hr : r = ""
  · subst hr; rfl
  · rw [jsOr_of_truthy _ _ (truthy_str_of_ne r hr),
        jsOr_of_truthy _ _ (truthy_str_of_ne r hr)]
    rfl

theorem normalizeStepCore_fix (tool : String) (afs : List (String × JVal))
    (e risk : String) (conf : ℚ)
    (htool : jsTrim tool = tool)
    (hrisk : risk ≠ "") (hrlow : jsToLower risk = risk)
    (h0 : 0 ≤ conf) (h1 : conf ≤ 1) :
    normalizeStepCore (.obj [("tool", .str tool), ("args", .obj afs),
        ("explanation", .str e), ("estimated_risk", .str risk),
        ("confidence", .num (.fin conf))])
      = .obj [("tool", .str tool), ("args", .obj afs), ("explanation", .str e),
              ("estimated_risk", .str risk), ("confidence", .num (.fin conf))] := by
  have hcore : normalizeStepCore (.obj [("tool", .str tool), ("args", .obj afs),
        ("explanation", .str e), ("estimated_risk", .str risk),
        ("confidence", .num (.fin conf))])
      = .obj [("tool", .str (jsTrim tool)), ("args", .obj afs), ("explanation", .str e),
              ("estimated_risk", .str (match jsOr (jsOr (JVal.str risk) .undef) .undef with
                 | JVal.str r => jsToLower r
                 | _ => "medium")),
              ("confidence", .num (.fin (clampConfidence (.num (.fin conf)))))] := rfl
  rw [hcore, htool, clampConfidence_fix conf h0 h1,
    jsOr_of_truthy _ _ (truthy_str_of_ne risk hrisk),
    jsOr_of_truthy _ _ (truthy_str_of_ne risk hrisk)]
  dsimp only
  rw [hrlow]

theorem normalizeStep_eq_of_ne_null (s : JVal) (h : s ≠ .null) :
    normalizeStep s = some (normalizeStepCore (stepRecv s)) := by
  cases s <;> first | exact absurd rfl h | rfl

theorem normalizeStep_obj (fs : List (String × JVal)) :
    normalizeStep (.obj fs) = some (normalizeStepCore (.obj fs)) := rfl

theorem stepExplGood_of_ne_null (s : JVal) (h : s ≠ .null) :
    stepExplGood s = (typeofString ((stepRecv s).getD "explanation")
      || !truthy ((stepRecv s).getD "reason")
      || typeofString ((stepRecv s).getD "reason")) := by
  cases s <;> first | exact absurd rfl h | rfl

theorem stepRiskGood_of_ne_null (s : JVal) (h : s ≠ .null) :
    stepRiskGood s = (match riskRawOf (stepRecv s) with
      | .str r => r ≠ ""
      | _ => true) := by
  cases s <;> first | exact absurd rfl h | rfl

theorem normalizeStepCore_shape (st : JVal) :
    normalizeStepCore st = .obj
      [("tool", .str (match st.getD "tool" with | .str t => jsTrim t | _ => "")),
       ("args", normalizeArgs (match st.getD "tool" with | .str t => jsTrim t | _ => "")
          (st.getD "args")),
       ("explanation", if typeofString (st.getD "explanation") then st.getD "explanation"
          else jsOr (st.getD "reason") (.str "")),
       ("estimated_risk", .str (match riskRawOf st with | .str r => jsToLower r | _ => "medium")),
       ("confidence", .num (.fin (clampConfidence
          (jsNullish (st.getD "confidence") (st.getD "score")))))] := rfl

theorem normalizeStep_fix (s s1 : JVal)
    (hg : stepExplGood s = true) (hr : stepRiskGood s = true)
    (h : normalizeStep s = some s1) : normalizeStep s1 = some s1 := by
  have hnotnull : s ≠ .null := by
    intro hc
    subst hc
    cases h
  rw [normalizeStep_eq_of_ne_null s hnotnull] at h
  injection h with h
  rw [stepExplGood_of_ne_null s hnotnull] at hg
  rw [stepRiskGood_of_ne_null s hnotnull] at hr
  subst h
  rw [normalizeStepCore_shape (stepRecv s)]
  have htool : jsTrim (match (stepRecv s).getD "tool" with | JVal.str t => jsTrim t | _ => "")
      = (match (stepRecv s).getD "tool" with | JVal.str t => jsTrim t | _ => "") := by
    cases (stepRecv s).getD "tool" <;> dsimp only <;> first | rfl | exact jsTrim_idem _
  obtain ⟨afs, hargs⟩ := normalizeArgs_isObj
    (match (stepRecv s).getD "tool" with | JVal.str t => jsTrim t | _ => "")
    ((stepRecv s).getD "args")
  have hexpl : ∃ e, (if typeofString ((stepRecv s).getD "explanation")
      then (stepRecv s).getD "explanation"
      else jsOr ((stepRecv s).getD "reason") (.str "")) = JVal.str e := by
    cases hte : typeofString ((stepRecv s).getD "explanation") with
    | true =>
      rw [if_pos rfl]
      cases hv : (stepRecv s).getD "explanation" <;> rw [hv] at hte <;> try cases hte
      exact ⟨_, rfl⟩
    | false =>
      rw [if_neg (by simp)]
      rw [hte] at hg
      simp only [Bool.false_or] at hg
      cases htr : truthy ((stepRecv s).getD "reason") with
      | false => rw [jsOr_of_falsy _ _ htr]; exact ⟨"", rfl⟩
      | true =>
        rw [jsOr_of_truthy _ _ htr]
        rw [htr] at hg
        simp only [Bool.not_true, Bool.false_or] at hg
        cases hv : (stepRecv s).getD "reason" <;> rw [hv] at hg <;> try cases hg
        exact ⟨_, rfl⟩
  obtain ⟨e, hexpl⟩ := hexpl
  have hriskNe : (match riskRawOf (stepRecv s) with
      | JVal.str r => jsToLower r | _ => "medium") ≠ "" := by
    cases hv : riskRawOf (stepRecv s) with
    | str r =>
      dsimp only
      apply jsToLower_ne_empty
      rw [hv] at hr
      simpa using hr
    | undef => dsimp only; decide
    | null => dsimp only; decide
    | bool b => dsimp only; decide
    | num n => dsimp only; decide
    | arr xs => dsimp only; decide
    | obj fs => dsimp only; decide
  have hrlow : jsToLower (match riskRawOf (stepRecv s) with
      | JVal.str r => jsToLower r | _ => "medium")
      = (match riskRawOf (stepRecv s) with
      | JVal.str r => jsToLower r | _ => "medium") := by
    cases riskRawOf (stepRecv s) <;> dsimp only <;> first | rfl | exact jsToLower_idem _
  obtain ⟨hc0, hc1⟩ := clampConfidence_mem
    (jsNullish ((stepRecv s).getD "confidence") ((stepRecv s).getD "score"))
  rw [hargs, hexpl]
  rw [normalizeStep_obj]
  rw [normalizeStepCore_fix _ afs e _ _ htool hriskNe hrlow hc0 hc1]

theorem mapSteps_fix (xs ys : List JVal)
    (hgood : ∀ s ∈ xs, stepExplGood s = true ∧ stepRiskGood s = true)
    (h : mapSteps xs = some ys) : mapSteps ys = some ys := by
  induction xs generalizing ys with
  | nil =>
    cases h
    rfl
  | cons s rest ih =>
    unfold mapSteps at h
    cases hns : normalizeStep s with
    | none => rw [hns] at h; cases h
    | some s1 =>
      rw [hns] at h
      dsimp only at h
      cases hmr : mapSteps rest with
      | none => rw [hmr] at h; cases h
      | some rest1 =>
        rw [hmr] at h
        injection h with h
        subst h
        have hfix1 := normalizeStep_fix s s1
          (hgood s (List.mem_cons_self s rest)).1
          (hgood s (List.mem_cons_self s rest)).2 hns
        have hrest := ih rest1
          (fun t ht => hgood t (List.mem_cons_of_mem s ht)) hmr
        unfold mapSteps
        rw [hfix1, hrest]
        rfl

theorem pickNonEmptyStr_str_ne (a : String) (rest : String) (h : a ≠ "") :
    pickNonEmptyStr (.str a) rest = a := by
  unfold pickNonEmptyStr
  dsimp only
  rw [if_pos h]

theorem normalizePlan_obj_compute (RS : String) (PID : JVal) (AUTO : String)
    (steps1 : List JVal) (fa : String) :
    normalizePlan (.obj [("reasoning_summary", .str RS), ("plan_id", PID),
        ("autonomy_level", .str AUTO), ("steps", .arr steps1)]) fa
      = match mapSteps steps1 with
        | none => none
        | some ns => some (.obj
            [("reasoning_summary", .str (toStringSafe (jsOr (jsOr (.str RS) .undef) (.str "")))),
             ("plan_id", jsOr (jsOr PID .undef) (.str createPlanId)),
             ("autonomy_level", .str (pickNonEmptyStr (.str AUTO)
                (pickNonEmptyStr .undef (pickNonEmptyStr .undef
                  (if fa ≠ "" then fa else DEFAULT_AUTONOMY))))),
             ("steps", .arr ns)]) := rfl

/-- Claim C10, amended: normalizePlan is idempotent on every value that does
    not hit its two non-fixed points: every step element must yield a string
    explanation (explanation a string, or reason falsy or a string) and must
    not end the risk chain in an empty risk string. The generated plan_id is
    modelled as a fixed fresh value; re-normalizing never regenerates it. -/
theorem normalizePlan_idempotent_of_good_steps (v : JVal) (fa : String) (p : JVal)
    (hgood : goodSteps v = true)
    (hp : normalizePlan v fa = some p) :
    normalizePlan p fa = some p := by
  unfold normalizePlan at hp
  split at hp
  next hcond =>
    injection hp with hp
    subst hp
    unfold normalizePlan
    rw [if_pos hcond]
  next hcond =>
    cases hms : mapSteps (stepsOf v) with
    | none => rw [hms] at hp; cases hp
    | some steps1 =>
      rw [hms] at hp
      dsimp only at hp
      injection hp with hp
      subst hp
      have hgood2 : ∀ s ∈ stepsOf v, stepExplGood s = true ∧ stepRiskGood s = true := by
        intro s hs
        have := (List.all_eq_true.mp hgood) s hs
        simp only [Bool.and_eq_true] at this
        exact this
      have hfixsteps : mapSteps steps1 = some steps1 := mapSteps_fix _ _ hgood2 hms
      rw [normalizePlan_obj_compute, hfixsteps]
      dsimp only
      rw [toStringSafe_jsOr_fix]
      have hpid : truthy (jsOr (jsOr (v.getD "plan_id") (v.getD "planId"))
          (.str createPlanId)) = true :=
        truthy_jsOr_right _ _ (by decide)
      rw [jsOr_of_truthy _ _ hpid, jsOr_of_truthy _ _ hpid]
      rw [pickNonEmptyStr_str_ne _ _ (resolveAutonomy_ne_empty v fa)]

/-- Claim C10, counterexample: normalizePlan is not idempotent. On the plan
    value with steps [{reason: 5}, {risk_level: ""}] the first pass keeps the
    non-string reason as the explanation and the empty risk string, while the
    second pass rewrites them to "" and "medium" — so normalizing twice
    differs from normalizing once. -/
theorem normalizePlan_not_idempotent_counterexample :
    normalizePlan (.obj [("steps", .arr
        [.obj [("reason", .num (.fin 5))], .obj [("risk_level", .str "")]])]) "assisted"
      = some (.obj
        [("reasoning_summary", .str ""),
         ("plan_id", .str createPlanId),
         ("autonomy_level", .str "assisted"),
         ("steps", .arr
           [.obj [("tool", .str ""), ("args", .obj []), ("explanation", .num (.fin 5)),
                  ("estimated_risk", .str "medium"), ("confidence", .num (.fin (mkRat 3 5)))],
            .obj [("tool", .str ""), ("args", .obj []), ("explanation", .str ""),
                  ("estimated_risk", .str ""), ("confidence", .num (.fin (mkRat 3 5)))]])])
    ∧ normalizePlan (.obj
        [("reasoning_summary", .str ""),
         ("plan_id", .str createPlanId),
         ("autonomy_level", .str "assisted"),
         ("steps", .arr
           [.obj [("tool", .str ""), ("args", .obj []), ("explanation", .num (.fin 5)),
                  ("estimated_risk", .str "medium"), ("confidence", .num (.fin (mkRat 3 5)))],
            .obj [("tool", .str ""), ("args", .obj []), ("explanation", .str ""),
                  ("estimated_risk", .str ""), ("confidence", .num (.fin (mkRat 3 5)))]])]) "assisted"
      = some (.obj
        [("reasoning_summary", .str ""),
         ("plan_id", .str createPlanId),
         ("autonomy_level", .str "assisted"),
         ("steps", .arr
           [.obj [("tool", .str ""), ("args", .obj []), ("explanation", .str ""),
                  ("estimated_risk", .str "medium"), ("confidence", .num (.fin (mkRat 3 5)))],
            .obj [("tool", .str ""), ("args", .obj []), ("explanation", .str ""),
                  ("estimated_risk", .str "medium"), ("confidence", .num (.fin (mkRat 3 5)))]])])
    ∧ normalizePlan (.obj
        [("reasoning_summary", .str ""),
         ("plan_id", .str createPlanId),
         ("autonomy_level", .str "assisted"),
         ("steps", .arr
           [.obj [("tool", .str ""), ("args", .obj []), ("explanation", .num (.fin 5)),
                  ("estimated_risk", .str "medium"), ("confidence", .num (.fin (mkRat 3 5)))],
            .obj [("tool", .str ""), ("args", .obj []), ("explanation", .str ""),
                  ("estimated_risk", .str ""), ("confidence", .num (.fin (mkRat 3 5)))]])]) "assisted"
      ≠ some (.obj
        [("reasoning_summary", .str ""),
         ("plan_id", .str createPlanId),
         ("autonomy_level", .str "assisted"),
         ("steps", .arr
           [.obj [("tool", .str ""), ("args", .obj []), ("explanation", .num (.fin 5)),
                  ("estimated_risk", .str "medium"), ("confidence", .num (.fin (mkRat 3 5)))],
            .obj [("tool", .str ""), ("args", .obj []), ("explanation", .str ""),
                  ("estimated_risk", .str ""), ("confidence", .num (.fin (mkRat 3 5)))]])]) := by
  refine ⟨rfl, rfl, ?_⟩
  intro h
  have h2 := h.symm.trans (rfl :
    normalizePlan (.obj
        [("reasoning_summary", .str ""),
         ("plan_id", .str createPlanId),
         ("autonomy_level", .str "assisted"),
         ("steps", .arr
           [.obj [("tool", .str ""), ("args", .obj []), ("explanation", .num (.fin 5)),
                  ("estimated_risk", .str "medium"), ("confidence", .num (.fin (mkRat 3 5)))],
            .obj [("tool", .str ""), ("args", .obj []), ("explanation", .str ""),
                  ("estimated_risk", .str ""), ("confidence", .num (.fin (mkRat 3 5)))]])]) "assisted"
      = some (.obj
        [("reasoning_summary", .str ""),
         ("plan_id", .str createPlanId),
         ("autonomy_level", .str "assisted"),
         ("steps", .arr
           [.obj [("tool", .str ""), ("args", .obj []), ("explanation", .str ""),
                  ("estimated_risk", .str "medium"), ("confidence", .num (.fin (mkRat 3 5)))],
            .obj [("tool", .str ""), ("args", .obj []), ("explanation", .str ""),
                  ("estimated_risk", .str "medium"), ("confidence", .num (.fin (mkRat 3 5)))]])]))
  injection h2 with h3
  exact JVal.noConfusion
    (congrArg (fun w => (((stepsOf w).getD 0 JVal.undef).getD "explanation")) h3)

/-- Witness for the amended C10: a step whose reason is the string "because"
    normalizes to a plan that is a fixed point of normalizePlan. -/
theorem normalizePlan_idempotent_of_good_steps_witness :
    normalizePlan (.obj
        [("reasoning_summary", .str ""),
         ("plan_id", .str createPlanId),
         ("autonomy_level", .str "assisted"),
         ("steps", .arr
           [.obj [("tool", .str ""), ("args", .obj []), ("explanation", .str "because"),
                  ("estimated_risk", .str "medium"), ("confidence", .num (.fin (mkRat 3 5)))]])]) "assisted"
      = some (.obj
        [("reasoning_summary", .str ""),
         ("plan_id", .str createPlanId),
         ("autonomy_level", .str "assisted"),
         ("steps", .arr
           [.obj [("tool", .str ""), ("args", .obj []), ("explanation", .str "because"),
                  ("estimated_risk", .str "medium"), ("confidence", .num (.fin (mkRat 3 5)))]])]) :=
  normalizePlan_idempotent_of_good_steps
    (.obj [("steps", .arr [.obj [("reason", .str "because")]])]) "assisted" _
    (by decide) rfl

end Loopert
